import Mathlib

/-!
Verification development for `run_single.cpp`.

A shallow embedding of the single-model run driver of the co-simulation
command line tool: the initial-value parser `parse_initial_values`, the
CSV trajectory writer `csv_output_writer` and the stepping loop of
`run_single_subcommand::run`.

Conventions of the embedding:

* `std::string` and `std::string_view` are sequences of characters, `Str`.
* `cosim::time_point` and `cosim::duration` are exact integer tick counts
  (`Int`); the tick arithmetic of the source is assumed not to overflow.
* the simulator (`cosim::slave`) and the output file are external; they are
  explicit state, transformed by the interface functions that the driver
  calls, and every call made by the driver is appended to a call log.
* exceptions are values of an error type returned in place of a result.
-/

namespace RunSingle

/-- Character sequences, standing for `std::string` and `std::string_view`. -/
abbrev Str := List Char

/-! ## The variable catalogue -/

/-- Modelled from the spec: the enumeration `cosim::variable_type` of the model
library, whose declaration is outside the sources at hand.  The four scalar
kinds of the data model, and `other` for any enumerator beyond them, which is
what reaches the `default:` branch of the switches in the source. -/
inductive variable_type where
  | real
  | integer
  | boolean
  | string
  | other
  deriving DecidableEq

/-- Modelled from the spec: the enumeration `cosim::variable_causality` of the
model library: settable from outside (`parameter`, `input`) or observable
only (`output`, `other`). -/
inductive variable_causality where
  | parameter
  | input
  | output
  | other
  deriving DecidableEq

/-- Modelled from the spec: a variable descriptor
`cosim::variable_description`, with the fields that the driver reads. -/
structure variable_description where
  name : Str
  reference : Nat
  type : variable_type
  causality : variable_causality
  deriving DecidableEq

/-- Modelled from the spec: `cosim::model_description`, of which the driver
reads the ordered variable list only (the member `variables`, a reserved word
here). -/
structure model_description where
  variables_ : List variable_description
  deriving DecidableEq

/-! ## Library conversions -/

/-- The conversions and the build mode that the source takes from outside:
`boost::lexical_cast<double>` and `boost::lexical_cast<int>` (`none` stands
for `bad_lexical_cast`), and whether `assert` is compiled out (`NDEBUG`).
The type `ρ` stands for `double`. -/
structure Conversions (ρ : Type) where
  castReal : Str → Option ρ
  castInt : Str → Option Int
  ndebug : Bool

/-! ## `parse_initial_values` -/

/-- The local `struct variable_values` of the source: four pairs of parallel
vectors. -/
structure variable_values (ρ : Type) where
  realVariables : List Nat := []
  realValues : List ρ := []
  integerVariables : List Nat := []
  integerValues : List Int := []
  booleanVariables : List Nat := []
  booleanValues : List Bool := []
  stringVariables : List Nat := []
  stringValues : List Str := []
  deriving DecidableEq

/-- What `parse_initial_values` can end with instead of a result: the four
exceptions thrown by the source, named after their messages, and the abort of
a failed `assert`. -/
inductive parse_error where
  /-- The `program_options::error` "Invalid initial value specification:
  'arg' (correct syntax: name=value)". -/
  | invalid_specification (arg : Str)
  /-- The `runtime_error` "No such variable: name". -/
  | no_such_variable (name : Str)
  /-- The `runtime_error` "Cannot initialise variable: name (only parameter and
  input variables can be set)". -/
  | cannot_initialise (name : Str)
  /-- The `program_options::error` "Invalid value for variable 'name': value". -/
  | invalid_value (name value : Str)
  /-- The abort of `assert(false)` in a build with assertions. -/
  | assertion_failed
  deriving DecidableEq

/-- The call `std::string_view::find(c)`: the position of the first occurrence
of `c`, `none` for `npos`. -/
def find (c : Char) : Str → Option Nat
  | [] => none
  | x :: xs => if x = c then some 0 else (find c xs).map (· + 1)

/-- The call `std::string_view::substr(pos, count)` for `pos` within the text. -/
def substr (s : Str) (pos count : Nat) : Str := (s.drop pos).take count

/-- The call `std::string_view::substr(pos)` for `pos` within the text. -/
def substrFrom (s : Str) (pos : Nat) : Str := s.drop pos

/-- The map `fastVarLookup`: entries of key and variable. -/
abbrev var_lookup := List (Str × variable_description)

/-- The call `unordered_map::emplace`: no effect when the key is present. -/
def emplace (m : var_lookup) (k : Str) (v : variable_description) : var_lookup :=
  if m.any (fun e => e.1 == k) then m else m ++ [(k, v)]

/-- The call `unordered_map::find`, `none` for `end()`. -/
def lookupFind (m : var_lookup) (k : Str) : Option variable_description :=
  (m.find? (fun e => e.1 == k)).map (·.2)

/-- The first loop of `parse_initial_values`: index the catalogue by name. -/
def fastVarLookup (modelDescription : model_description) : var_lookup :=
  modelDescription.variables_.foldl (fun m var => emplace m var.name var) []

/-- The `switch (var.type)` inside the `try` block of `parse_initial_values`,
with the `catch` that turns every exception into "Invalid value for
variable". -/
def push_value {ρ : Type} (cv : Conversions ρ) (values : variable_values ρ)
    (var : variable_description) (name value : Str) :
    Except parse_error (variable_values ρ) :=
  match var.type with
  | .real =>
    let values := { values with realVariables := values.realVariables ++ [var.reference] }
    match cv.castReal value with
    | some x => .ok { values with realValues := values.realValues ++ [x] }
    | none => .error (.invalid_value name value)
  | .integer =>
    let values := { values with integerVariables := values.integerVariables ++ [var.reference] }
    match cv.castInt value with
    | some x => .ok { values with integerValues := values.integerValues ++ [x] }
    | none => .error (.invalid_value name value)
  | .boolean =>
    let values := { values with booleanVariables := values.booleanVariables ++ [var.reference] }
    if value = "true".toList then
      .ok { values with booleanValues := values.booleanValues ++ [true] }
    else if value = "false".toList then
      .ok { values with booleanValues := values.booleanValues ++ [false] }
    else .error (.invalid_value name value)
  | .string =>
    let values := { values with stringVariables := values.stringVariables ++ [var.reference] }
    .ok { values with stringValues := values.stringValues ++ [value] }
  | .other => if cv.ndebug then .ok values else .error .assertion_failed

/-- The body of the loop over `args` in `parse_initial_values`. -/
def parse_arg {ρ : Type} (cv : Conversions ρ) (lookup : var_lookup)
    (values : variable_values ρ) (arg : Str) : Except parse_error (variable_values ρ) :=
  match find '=' arg with
  | none => .error (.invalid_specification arg)
  | some equalsPos =>
    let name := substr arg 0 equalsPos
    let value := substrFrom arg (equalsPos + 1)
    match lookupFind lookup name with
    | none => .error (.no_such_variable name)
    | some var =>
      if var.causality ≠ .parameter ∧ var.causality ≠ .input then
        .error (.cannot_initialise name)
      else push_value cv values var name value

/-- The loop over `args` in `parse_initial_values`, from the values collected
so far. -/
def parse_args {ρ : Type} (cv : Conversions ρ) (lookup : var_lookup) :
    variable_values ρ → List Str → Except parse_error (variable_values ρ)
  | values, [] => .ok values
  | values, arg :: rest =>
    match parse_arg cv lookup values arg with
    | .error e => .error e
    | .ok values => parse_args cv lookup values rest

/-- The function `parse_initial_values`. -/
def parse_initial_values {ρ : Type} (cv : Conversions ρ) (args : List Str)
    (modelDescription : model_description) : Except parse_error (variable_values ρ) :=
  parse_args cv (fastVarLookup modelDescription) {} args

/-! ## External collaborators of the run -/

/-- Modelled from the spec: the enumeration `cosim::step_result` of the model
library, the status of one step. -/
inductive step_result where
  | complete
  | failed
  deriving DecidableEq

/-- Modelled from the spec: `cosim::slave::variable_values`, the values that
one batched read returns, one vector per type. -/
structure slave_values (ρ : Type) where
  real : List ρ := []
  integer : List Int := []
  boolean : List Bool := []
  string : List Str := []
  deriving DecidableEq

/-- Modelled from the spec: the interface `cosim::slave` of a simulator with
state `σ`.  Only `do_step` and `get_variables` give the driver something to
branch on; `get_variables` returns `none` when the read throws.  The other
calls are taken to return normally. -/
structure slave (σ ρ : Type) where
  setup : σ → Int → Int → σ
  set_variables : σ → variable_values ρ → σ
  start_simulation : σ → σ
  do_step : σ → Int → Int → step_result × σ
  get_variables : σ → List Nat → List Nat → List Nat → List Nat → Option (slave_values ρ)
  end_simulation : σ → σ

/-- The stream insertions `operator<<` that the writer takes from outside: of a
value reference, a variable type and a causality (header), and of the time in
`std::fixed` form, a `double` and an `int` (rows). -/
structure Rendering (ρ : Type) where
  showReference : Nat → Str
  showType : variable_type → Str
  showCausality : variable_causality → Str
  showTime : Int → Str
  showReal : ρ → Str
  showInt : Int → Str

/-- Everything outside the driver for one run: the library conversions and
insertions, the simulator that `instantiate` returns, the catalogue of the
model (the same one from `model->description()` and from
`simulator_->model_description()`), and the file system: whether the output
file can be opened, and whether a text can be appended to given content.  The
output stream throws on failure (`exceptions(badbit | failbit)`). -/
structure collaborators (σ ρ : Type) where
  conversions : Conversions ρ
  rendering : Rendering ρ
  simulator : slave σ ρ
  description : model_description
  open_ok : Bool
  write_ok : Str → Str → Bool

/-- One call of the driver to a collaborator, as kept in the call log.  The
calls to the simulator and to `open` of the stream are logged when made;
`write_header` and `write_row` are logged when the line has been appended to
the stream, `write_row` with the time that the row is for. -/
inductive event (ρ : Type) where
  | lookup_model (uri : Str)
  | instantiate
  | setup (startTime stopTime : Int)
  | set_variables (values : variable_values ρ)
  | open_output (outputFile : Str)
  | write_header (text : Str)
  | start_simulation
  | get_variables (real integer boolean string : List Nat)
  | write_row (t : Int) (text : Str)
  | do_step (t dt : Int)
  | end_simulation
  | sleep (t : Int)
  | progress (t : Int)
  deriving DecidableEq

/-- How a run can end other than by returning. -/
inductive run_error where
  /-- The `program_options::error` "Invalid step size (must be >0)". -/
  | invalid_step_size
  /-- An exception or abort out of `parse_initial_values`. -/
  | initial_values (e : parse_error)
  /-- The `runtime_error` "Simulator was unable to complete time step at t=". -/
  | step_failed (t : Int)
  /-- The `ios_base::failure` of the output stream. -/
  | output_failure
  /-- An exception out of `get_variables`. -/
  | read_failure
  /-- The abort of `assert(false)` in the writer, in a build with assertions. -/
  | assertion_failed
  deriving DecidableEq

/-- The state that a run transforms: the simulator, the log of the calls made
so far (oldest first) and the content of the output stream (`none` while the
file has not been opened). -/
structure run_state (σ ρ : Type) where
  sim : σ
  log : List (event ρ) := []
  output : Option Str := none

/-! ## `csv_output_writer` -/

/-- The data members of `csv_output_writer` besides the simulator and the
stream, which live in the run state. -/
structure csv_output_writer where
  realVariables_ : List Nat := []
  integerVariables_ : List Nat := []
  booleanVariables_ : List Nat := []
  stringVariables_ : List Nat := []
  deriving DecidableEq

/-- The four header streams of the constructor of `csv_output_writer`. -/
structure var_headers where
  realVarHeader : Str := []
  integerVarHeader : Str := []
  booleanVarHeader : Str := []
  stringVarHeader : Str := []
  deriving DecidableEq

/-- The text that the constructor inserts for one variable:
`',' << var.name << " [" << var.reference << ' ' << var.type << ' ' << var.causality << ']'`. -/
def header_label {ρ : Type} (rd : Rendering ρ) (var : variable_description) : Str :=
  [','] ++ var.name ++ " [".toList ++ rd.showReference var.reference ++ [' '] ++
    rd.showType var.type ++ [' '] ++ rd.showCausality var.causality ++ [']']

/-- The loop over the catalogue in the constructor of `csv_output_writer`;
`none` is the abort of `assert(false)`. -/
def collect_headers {ρ : Type} (rd : Rendering ρ) (ndebug : Bool) :
    var_headers × csv_output_writer → List variable_description →
    Option (var_headers × csv_output_writer)
  | acc, [] => some acc
  | (h, w), var :: rest =>
    match var.type with
    | .real => collect_headers rd ndebug
        ({ h with realVarHeader := h.realVarHeader ++ header_label rd var },
         { w with realVariables_ := w.realVariables_ ++ [var.reference] }) rest
    | .integer => collect_headers rd ndebug
        ({ h with integerVarHeader := h.integerVarHeader ++ header_label rd var },
         { w with integerVariables_ := w.integerVariables_ ++ [var.reference] }) rest
    | .boolean => collect_headers rd ndebug
        ({ h with booleanVarHeader := h.booleanVarHeader ++ header_label rd var },
         { w with booleanVariables_ := w.booleanVariables_ ++ [var.reference] }) rest
    | .string => collect_headers rd ndebug
        ({ h with stringVarHeader := h.stringVarHeader ++ header_label rd var },
         { w with stringVariables_ := w.stringVariables_ ++ [var.reference] }) rest
    | .other => if ndebug then collect_headers rd ndebug (h, w) rest else none

/-- The header line that the constructor writes: `"Time"`, each header stream
that has characters available, and the line end. -/
def header_line (h : var_headers) : Str :=
  "Time".toList ++ (if h.realVarHeader ≠ [] then h.realVarHeader else []) ++
    (if h.integerVarHeader ≠ [] then h.integerVarHeader else []) ++
    (if h.booleanVarHeader ≠ [] then h.booleanVarHeader else []) ++
    (if h.stringVarHeader ≠ [] then h.stringVarHeader else []) ++ ['\n']

/-- The constructor of `csv_output_writer`: open the file, walk the catalogue,
write the header line. -/
def csv_output_writer.create {σ ρ : Type} (env : collaborators σ ρ) (outputFile : Str)
    (st : run_state σ ρ) : run_state σ ρ × Except run_error csv_output_writer :=
  let st := { st with log := st.log ++ [.open_output outputFile] }
  if env.open_ok then
    let st := { st with output := some [] }
    match collect_headers env.rendering env.conversions.ndebug ({}, {})
        env.description.variables_ with
    | none => (st, .error .assertion_failed)
    | some (h, w) =>
      if env.write_ok [] (header_line h) then
        ({ st with log := st.log ++ [.write_header (header_line h)],
                   output := some (header_line h) }, .ok w)
      else (st, .error .output_failure)
  else (st, .error .output_failure)

/-- The line that `csv_output_writer::update` writes for time `t` and the
values read: the time, then each value after a comma, then the line end. -/
def row_line {ρ : Type} (rd : Rendering ρ) (t : Int) (values : slave_values ρ) : Str :=
  rd.showTime t ++ (values.real.map (fun v => [','] ++ rd.showReal v)).flatten ++
    (values.integer.map (fun v => [','] ++ rd.showInt v)).flatten ++
    (values.boolean.map (fun v => [','] ++ (if v then "true".toList else "false".toList))).flatten ++
    (values.string.map (fun v => [','] ++ v)).flatten ++ ['\n']

/-- The member function `csv_output_writer::update`. -/
def csv_output_writer.update {σ ρ : Type} (env : collaborators σ ρ) (w : csv_output_writer)
    (t : Int) (st : run_state σ ρ) : run_state σ ρ × Except run_error Unit :=
  let st := { st with log := st.log ++ [.get_variables w.realVariables_ w.integerVariables_
    w.booleanVariables_ w.stringVariables_] }
  match env.simulator.get_variables st.sim w.realVariables_ w.integerVariables_
      w.booleanVariables_ w.stringVariables_ with
  | none => (st, .error .read_failure)
  | some values =>
    let line := row_line env.rendering t values
    if env.write_ok (st.output.getD []) line then
      ({ st with log := st.log ++ [.write_row t line],
                 output := some (st.output.getD [] ++ line) }, .ok ())
    else (st, .error .output_failure)

/-! ## `run_single_subcommand::run` -/

/-- The options that `run` reads from the parsed command line: the common run
options `begin_time` and `end_time`, the step size after `to_duration`, the
model, the output file, and the initial values when the option is present. -/
structure run_options where
  begin_time : Int
  end_time : Int
  stepSize : Int
  uri_or_path : Str
  output_file : Str
  initial_value : Option (List Str)
  deriving DecidableEq

/-- What a run leaves behind: the final state, and the returned value or the
error. -/
structure run_outcome (σ ρ : Type) where
  state : run_state σ ρ
  result : Except run_error Int

/-- The call `simulator->end_simulation()`. -/
def end_simulation {σ ρ : Type} (env : collaborators σ ρ) (st : run_state σ ρ) :
    run_state σ ρ :=
  { st with sim := env.simulator.end_simulation st.sim, log := st.log ++ [.end_simulation] }

/-- The `for` loop of `run`, from time `t`.  It terminates because the step
size is positive, which `run` has checked before. -/
def step_loop {σ ρ : Type} (env : collaborators σ ρ) (end_time stepSize : Int)
    (hs : 0 < stepSize) (output : csv_output_writer) (t : Int) (st : run_state σ ρ) :
    run_state σ ρ × Except run_error Unit :=
  if _h : t < end_time then
    let dt := min (end_time - t) stepSize
    let stepResult := env.simulator.do_step st.sim t stepSize
    let st := { st with sim := stepResult.2, log := st.log ++ [.do_step t stepSize] }
    if stepResult.1 ≠ .complete then
      (end_simulation env st, .error (.step_failed t))
    else
      match output.update env (t + dt) st with
      | (st, .error e) => (st, .error e)
      | (st, .ok _) =>
        let st := { st with log := st.log ++ [.sleep (t + dt), .progress (t + dt)] }
        step_loop env end_time stepSize hs output (t + dt) st
  else (st, .ok ())
termination_by (end_time - t).toNat
decreasing_by
  have : 0 < min (end_time - t) stepSize := lt_min (by omega) hs
  omega

/-- The function `run_single_subcommand::run`, from the simulator state that
`instantiate` returns. -/
def run {σ ρ : Type} (env : collaborators σ ρ) (args : run_options) (sim : σ) :
    run_outcome σ ρ :=
  let st : run_state σ ρ := { sim := sim }
  if hs : args.stepSize ≤ 0 then ⟨st, .error .invalid_step_size⟩
  else
    let st : run_state σ ρ := { st with log := st.log ++ [.lookup_model args.uri_or_path] }
    let initialValues : Except parse_error (Option (variable_values ρ)) :=
      match args.initial_value with
      | none => .ok none
      | some l => (parse_initial_values env.conversions l env.description).map some
    match initialValues with
    | .error e => ⟨st, .error (.initial_values e)⟩
    | .ok initialValues =>
      let st : run_state σ ρ := { st with log := st.log ++ [.instantiate] }
      let st : run_state σ ρ := { st with
        log := st.log ++ [.setup args.begin_time args.end_time],
        sim := env.simulator.setup st.sim args.begin_time args.end_time }
      let st : run_state σ ρ := match initialValues with
        | none => st
        | some v => { st with
            log := st.log ++ [.set_variables v],
            sim := env.simulator.set_variables st.sim v }
      match csv_output_writer.create env args.output_file st with
      | (st, .error e) => ⟨st, .error e⟩
      | (st, .ok output) =>
        let st : run_state σ ρ := { st with
          log := st.log ++ [.start_simulation],
          sim := env.simulator.start_simulation st.sim }
        match output.update env args.begin_time st with
        | (st, .error e) => ⟨st, .error e⟩
        | (st, .ok _) =>
          match step_loop env args.end_time args.stepSize (not_le.mp hs) output
              args.begin_time st with
          | (st, .error e) => ⟨st, .error e⟩
          | (st, .ok _) => ⟨end_simulation env st, .ok 0⟩

/-! ## Sample collaborators, for evaluating the embedding on concrete inputs -/

/-- The value of a non-empty sequence of decimal digits. -/
def digits_value : Str → Option Nat
  | [] => none
  | s => if s.all Char.isDigit then some (s.foldl (fun n c => 10 * n + (c.toNat - 48)) 0)
         else none

/-- A sample of `lexical_cast<int>`: an optional sign and decimal digits, with a
value that fits 32 bits. -/
def sample_cast_int (s : Str) : Option Int :=
  let r : Option Int := match s with
    | '-' :: ds => (digits_value ds).map (fun n => -(n : Int))
    | '+' :: ds => (digits_value ds).map (fun n => (n : Int))
    | ds => (digits_value ds).map (fun n => (n : Int))
  r.bind (fun n => if -2147483648 ≤ n ∧ n ≤ 2147483647 then some n else none)

/-- A sample of `lexical_cast<double>`, on the integer literals only, which a
`double` holds exactly. -/
def sample_cast_real (s : Str) : Option Int := sample_cast_int s

/-- Decimal digits of a natural number. -/
def show_nat (n : Nat) : Str := (Nat.toDigits 10 n)

/-- Decimal text of an integer. -/
def show_int : Int → Str
  | .ofNat n => show_nat n
  | .negSucc n => '-' :: show_nat (n + 1)

/-- Sample conversions, in a build without assertions. -/
def sample_conversions : Conversions Int :=
  { castReal := sample_cast_real, castInt := sample_cast_int, ndebug := true }

/-- Sample stream insertions. -/
def sample_rendering : Rendering Int :=
  { showReference := show_nat
    showType := fun
      | .real => "real".toList | .integer => "integer".toList
      | .boolean => "boolean".toList | .string => "string".toList
      | .other => "enumeration".toList
    showCausality := fun
      | .parameter => "parameter".toList | .input => "input".toList
      | .output => "output".toList | .other => "local".toList
    showTime := show_int
    showReal := show_int
    showInt := show_int }

/-- A stub simulator without state: every step completes, and a read returns
zero, `false` or the empty string for each reference asked for. -/
def stub_slave : slave Unit Int :=
  { setup := fun s _ _ => s
    set_variables := fun s _ => s
    start_simulation := fun s => s
    do_step := fun s _ _ => (.complete, s)
    get_variables := fun _ r i b s =>
      some { real := r.map (fun _ => 0), integer := i.map (fun _ => 0),
             boolean := b.map (fun _ => false), string := s.map (fun _ => []) }
    end_simulation := fun s => s }

/-- A sample catalogue: a real parameter `x`, a boolean input `y`, a string
parameter `s`, an integer input `n` and a boolean output `z`. -/
def sample_description : model_description :=
  ⟨[⟨"x".toList, 0, .real, .parameter⟩, ⟨"y".toList, 1, .boolean, .input⟩,
    ⟨"s".toList, 2, .string, .parameter⟩, ⟨"n".toList, 3, .integer, .input⟩,
    ⟨"z".toList, 4, .boolean, .output⟩]⟩

/-- Sample collaborators: the stub simulator with the sample catalogue and a
file system on which every operation succeeds. -/
def sample_env : collaborators Unit Int :=
  { conversions := sample_conversions
    rendering := sample_rendering
    simulator := stub_slave
    description := sample_description
    open_ok := true
    write_ok := fun _ _ => true }

/-- Sample options: from time 0 to time 3 in steps of 2, with initial values
for `x` and `y`. -/
def sample_options : run_options :=
  { begin_time := 0, end_time := 3, stepSize := 2
    uri_or_path := "model.fmu".toList, output_file := "out.csv".toList
    initial_value := some ["x=25".toList, "y=true".toList] }

/-- Sample options with an initial value that does not convert: `notabool` for
the boolean `y`, after a valid value for `x`. -/
def sample_options_notabool : run_options :=
  { sample_options with initial_value := some ["x=25".toList, "y=notabool".toList] }

/-- A sample argument list: two string arguments around a boolean and a real
one. -/
def sample_args : List Str :=
  ["s=a".toList, "y=true".toList, "x=25".toList, "s=b c".toList]

/-- The values that `parse_initial_values` returns for the sample argument
list. -/
def sample_values : variable_values Int :=
  { realVariables := [0], realValues := [25]
    booleanVariables := [1], booleanValues := [true]
    stringVariables := [2, 2], stringValues := ["a".toList, "b c".toList] }

/-- A stub simulator that counts the completed steps: the first step
completes, every later one fails. -/
def failing_slave : slave Nat Int :=
  { setup := fun z _ _ => z
    set_variables := fun z _ => z
    start_simulation := fun z => z
    do_step := fun z _ _ => if z < 1 then (.complete, z + 1) else (.failed, z)
    get_variables := fun _ r i b s =>
      some { real := r.map (fun _ => 0), integer := i.map (fun _ => 0),
             boolean := b.map (fun _ => false), string := s.map (fun _ => []) }
    end_simulation := fun z => z }

/-- Sample collaborators with the simulator whose second step fails. -/
def failing_env : collaborators Nat Int :=
  { conversions := sample_conversions
    rendering := sample_rendering
    simulator := failing_slave
    description := sample_description
    open_ok := true
    write_ok := fun _ _ => true }

/-- A stub simulator whose reads throw. -/
def unreadable_slave : slave Unit Int :=
  { stub_slave with get_variables := fun _ _ _ _ _ => none }

/-- Sample collaborators with the simulator whose reads throw. -/
def unreadable_env : collaborators Unit Int :=
  { sample_env with simulator := unreadable_slave }

/-- Sample collaborators with a file system on which the file takes the header
line and every later write fails. -/
def full_disk_env : collaborators Unit Int :=
  { sample_env with write_ok := fun content _ => decide (content = []) }

/-- Sample options with a step size that is not positive. -/
def sample_options_zero_step : run_options :=
  { sample_options with stepSize := 0 }

/-- A stub simulator that counts: each step adds 1 to the state and
`end_simulation` adds 100. -/
def counting_slave : slave Nat Int :=
  { failing_slave with
    do_step := fun z _ _ => (.complete, z + 1)
    end_simulation := fun z => z + 100 }

/-- Sample collaborators with the counting simulator. -/
def counting_env : collaborators Nat Int :=
  { failing_env with simulator := counting_slave }

/-- A stub simulator whose second step fails and whose `end_simulation` adds
100 to the state. -/
def halting_slave : slave Nat Int :=
  { failing_slave with end_simulation := fun z => z + 100 }

/-- Sample collaborators with the simulator whose second step fails and whose
`end_simulation` shows in the state. -/
def halting_env : collaborators Nat Int :=
  { failing_env with simulator := halting_slave }

/-- The calls of the sample run from 0 to 3 in steps of 2 with the simulator
whose second step fails. -/
def halting_log : List (event Int) :=
  [.lookup_model "model.fmu".toList, .instantiate, .setup 0 3,
    .set_variables
      { realVariables := [0], realValues := [25], booleanVariables := [1],
        booleanValues := [true] },
    .open_output "out.csv".toList,
    .write_header "Time,x [0 real parameter],n [3 integer input],y [1 boolean input],z [4 boolean output],s [2 string parameter]\n".toList,
    .start_simulation, .get_variables [0] [3] [1, 4] [2],
    .write_row 0 "0,0,0,false,false,\n".toList,
    .do_step 0 2, .get_variables [0] [3] [1, 4] [2],
    .write_row 2 "2,0,0,false,false,\n".toList, .sleep 2, .progress 2,
    .do_step 2 2, .end_simulation]

/-- The name part of an argument: the text before its first `=`. -/
def arg_name (arg : Str) : Str := arg.takeWhile (fun c => c != '=')

/-- The right-hand side of an argument: the text after its first `=`. -/
def arg_value (arg : Str) : Str := (arg.dropWhile (fun c => c != '=')).drop 1

/-- The catalogue variable that a name resolves to: the first one, in catalogue
order, with that name. -/
def catalog_variable (md : model_description) (name : Str) : Option variable_description :=
  md.variables_.find? (fun var => var.name == name)

/-- The catalogue variable that an argument names, if the argument has an `=`
and its name part resolves. -/
def arg_variable (md : model_description) (arg : Str) : Option variable_description :=
  if '=' ∈ arg then catalog_variable md (arg_name arg) else none

/-- Whether an argument names a catalogue variable of type `T`. -/
def has_type (md : model_description) (T : variable_type) (arg : Str) : Bool :=
  (arg_variable md arg).map (fun var => var.type) == some T

/-- The reference id of the variable that an argument names. -/
def arg_reference (md : model_description) (arg : Str) : Option Nat :=
  (arg_variable md arg).map (fun var => var.reference)

/-- The boolean that a text denotes: `true` and `false` only. -/
def boolean_of_text (value : Str) : Option Bool :=
  if value = "true".toList then some true
  else if value = "false".toList then some false
  else none

/-- Whether a variable can be set from outside: causality `parameter` or
`input`. -/
def settable (var : variable_description) : Prop :=
  var.causality = .parameter ∨ var.causality = .input

/-- The error of the conversion check alone, for an argument with the given
name and value parts that names the settable variable `var`. -/
def conversion_error {ρ : Type} (cv : Conversions ρ) (var : variable_description)
    (name value : Str) : Option parse_error :=
  match var.type with
  | .real => if (cv.castReal value).isNone then some (.invalid_value name value) else none
  | .integer => if (cv.castInt value).isNone then some (.invalid_value name value) else none
  | .boolean =>
    if (boolean_of_text value).isNone then some (.invalid_value name value) else none
  | .string => none
  | .other => if cv.ndebug then none else some .assertion_failed

/-- The error of one argument taken alone, with the checks in the order
malformed, unknown variable, not settable, conversion; `none` when the
argument passes them all. -/
def first_error {ρ : Type} (cv : Conversions ρ) (md : model_description) (arg : Str) :
    Option parse_error :=
  if '=' ∈ arg then
    match catalog_variable md (arg_name arg) with
    | none => some (.no_such_variable (arg_name arg))
    | some var =>
      if var.causality = .parameter ∨ var.causality = .input then
        conversion_error cv var (arg_name arg) (arg_value arg)
      else some (.cannot_initialise (arg_name arg))
  else some (.invalid_specification arg)

/-! ## Notions used to state the properties of the writer -/

/-- The label of a variable in the header: its name, then its reference, type
and causality in brackets. -/
def column_label {ρ : Type} (rd : Rendering ρ) (var : variable_description) : Str :=
  var.name ++ " [".toList ++ rd.showReference var.reference ++ [' '] ++
    rd.showType var.type ++ [' '] ++ rd.showCausality var.causality ++ [']']

/-- The catalogue variables of a type, in catalogue order. -/
def variables_of_type (md : model_description) (T : variable_type) :
    List variable_description :=
  md.variables_.filter (fun var => var.type == T)

/-- The catalogue variables in column order: the real ones, then the integer,
the boolean and the string ones, each group in catalogue order. -/
def catalog_columns (md : model_description) : List variable_description :=
  variables_of_type md .real ++ variables_of_type md .integer ++
    variables_of_type md .boolean ++ variables_of_type md .string

/-- The text of a boolean value in a row. -/
def boolean_text (v : Bool) : Str := if v then "true".toList else "false".toList

/-- The value cells of a row: the texts of the real values, then of the
integer, the boolean and the string values. -/
def row_cells {ρ : Type} (rd : Rendering ρ) (values : slave_values ρ) : List Str :=
  values.real.map rd.showReal ++ values.integer.map rd.showInt ++
    values.boolean.map boolean_text ++ values.string

/-- A line of the output: a first cell, then each further cell after a comma,
then the line end. -/
def csv_line (first : Str) (cells : List Str) : Str :=
  first ++ (cells.map (fun c => [','] ++ c)).flatten ++ ['\n']

/-- The text that the lines logged as written make up, in the order of
writing. -/
def written_text {ρ : Type} (log : List (event ρ)) : Str :=
  (log.filterMap (fun ev => match ev with
    | .write_header text => some text
    | .write_row _ text => some text
    | _ => none)).flatten


/-- The times of the rows in the output, oldest first. -/
def recorded_times {ρ : Type} (log : List (event ρ)) : List Int :=
  log.filterMap (fun ev => match ev with
    | .write_row t _ => some t
    | _ => none)

/-- The arguments of the `do_step` calls made, oldest first. -/
def do_step_calls {ρ : Type} (log : List (event ρ)) : List (Int × Int) :=
  log.filterMap (fun ev => match ev with
    | .do_step t dt => some (t, dt)
    | _ => none)

/-- The number of iterations that the loop is to make from `t` to `end_time`
in steps of `stepSize`: the quotient of the distance by the step, rounded
up. -/
def iterations (t end_time stepSize : Int) : Nat :=
  ⌈((end_time - t : Int) : ℚ) / (stepSize : ℚ)⌉.toNat

/-- The part of `run` from `start_simulation` on: the first recording, the
loop and the end of the simulation. -/
def simulate {σ ρ : Type} (env : collaborators σ ρ) (args : run_options)
    (hs : 0 < args.stepSize) (output : csv_output_writer) (st : run_state σ ρ) :
    run_outcome σ ρ :=
  match output.update env args.begin_time
      { st with log := st.log ++ [.start_simulation],
                sim := env.simulator.start_simulation st.sim } with
  | (st, .error e) => ⟨st, .error e⟩
  | (st, .ok _) =>
    match step_loop env args.end_time args.stepSize hs output args.begin_time st with
    | (st, .error e) => ⟨st, .error e⟩
    | (st, .ok _) => ⟨end_simulation env st, .ok 0⟩

/-- The state in which `run` constructs the writer: after the model lookup, the
instantiation, `setup` and, with initial values, `set_variables`. -/
def prepared_state {σ ρ : Type} (env : collaborators σ ρ) (args : run_options)
    (initialValues : Option (variable_values ρ)) (sim : σ) : run_state σ ρ :=
  match initialValues with
  | none =>
    { sim := env.simulator.setup sim args.begin_time args.end_time,
      log := [.lookup_model args.uri_or_path, .instantiate,
        .setup args.begin_time args.end_time] }
  | some v =>
    { sim := env.simulator.set_variables
        (env.simulator.setup sim args.begin_time args.end_time) v,
      log := [.lookup_model args.uri_or_path, .instantiate,
        .setup args.begin_time args.end_time, .set_variables v] }

/-- The initial values that `run` has after parsing, when parsing succeeds. -/
def parsed_initial_values {σ ρ : Type} (env : collaborators σ ρ) (args : run_options) :
    Option (variable_values ρ) :=
  match args.initial_value with
  | none => none
  | some l =>
    match parse_initial_values env.conversions l env.description with
    | .ok v => some v
    | .error _ => none

/-- The simulator state in which the loop starts: after `setup`, the initial
values if any, and `start_simulation`. -/
def started_sim {σ ρ : Type} (env : collaborators σ ρ) (args : run_options) (sim : σ) : σ :=
  env.simulator.start_simulation
    (prepared_state env args (parsed_initial_values env args) sim).sim

/-- The simulator state before the `k`-th `do_step` call (counting from 0) of
a loop that starts at time `t` in state `z` with the step size `s`, when the
calls before it complete. -/
def sim_before_step {σ ρ : Type} (env : collaborators σ ρ) (s : Int) : Nat → Int → σ → σ
  | 0, _, z => z
  | k + 1, t, z => sim_before_step env s k (t + s) (env.simulator.do_step z t s).2

/-- What holds of the events `mid` of the iterations of a loop from time `t`
that went through: the rows in them are at strictly increasing times after
`t`, each at most one step `s` after the one before and none after the end
time `e`; there is one `do_step` call of the full step size at the time before
each row; and the simulation is neither started nor ended in them. -/
def iteration_events {ρ : Type} (e s t : Int) (mid : List (event ρ)) : Prop :=
  List.Chain (fun a b => a < b ∧ b - a ≤ s) t (recorded_times mid) ∧
  (∀ x ∈ recorded_times mid, x ≤ e) ∧
  do_step_calls mid = ((t :: recorded_times mid).dropLast).map (fun x => (x, s)) ∧
  (∀ ev ∈ mid, ev ≠ .end_simulation ∧ ev ≠ .start_simulation)

/-! ## Lemmas on the text operations and the lookup -/

theorem find_eq_none_iff (c : Char) (s : Str) : find c s = none ↔ c ∉ s := by
  induction s with
  | nil => simp [find]
  | cons x xs ih =>
    by_cases hx : x = c
    · simp [find, hx]
    · have hx2 : ¬ c = x := fun h => hx h.symm
      simp [find, hx, hx2, ih]

theorem find_some_split (s : Str) (p : Nat) (h : find '=' s = some p) :
    substr s 0 p = arg_name s ∧ substrFrom s (p + 1) = arg_value s := by
  induction s generalizing p with
  | nil => simp [find] at h
  | cons x xs ih =>
    by_cases hx : x = '='
    · subst hx
      simp [find] at h
      subst h
      simp [substr, substrFrom, arg_name, arg_value, List.takeWhile, List.dropWhile]
    · simp only [find, hx, if_false, Option.map_eq_some'] at h
      obtain ⟨q, hq, rfl⟩ := h
      have hx2 : (x != '=') = true := by simp [hx]
      have := ih q hq
      simp only [substr, substrFrom, arg_name, arg_value, List.drop_zero] at this
      simp [substr, substrFrom, arg_name, arg_value, List.takeWhile_cons, List.dropWhile_cons,
        hx2, this]

theorem find_append_eq (n v : Str) (hn : '=' ∉ n) :
    find '=' (n ++ '=' :: v) = some n.length := by
  induction n with
  | nil => simp [find]
  | cons x xs ih =>
    have hx : ¬ x = '=' := fun h => hn (by simp [h])
    have hxs : '=' ∉ xs := fun h => hn (by simp [h])
    simp [find, hx, ih hxs]

theorem arg_name_append (n v : Str) (hn : '=' ∉ n) : arg_name (n ++ '=' :: v) = n := by
  induction n with
  | nil => simp [arg_name, List.takeWhile]
  | cons x xs ih =>
    have hx : ¬ x = '=' := fun h => hn (by simp [h])
    have hxs : '=' ∉ xs := fun h => hn (by simp [h])
    have hx2 : (x != '=') = true := by simp [hx]
    have := ih hxs
    simp only [arg_name] at this
    simp [arg_name, List.takeWhile_cons, hx2, this]

theorem arg_value_append (n v : Str) (hn : '=' ∉ n) : arg_value (n ++ '=' :: v) = v := by
  induction n with
  | nil => simp [arg_value, List.dropWhile]
  | cons x xs ih =>
    have hx : ¬ x = '=' := fun h => hn (by simp [h])
    have hxs : '=' ∉ xs := fun h => hn (by simp [h])
    have hx2 : (x != '=') = true := by simp [hx]
    have := ih hxs
    simp only [arg_value] at this
    simp [arg_value, List.dropWhile_cons, hx2, this]

theorem lookupFind_emplace (m : var_lookup) (n k : Str) (v : variable_description) :
    lookupFind (emplace m n v) k =
      match lookupFind m k with
      | some x => some x
      | none => if n == k then some v else none := by
  unfold emplace
  by_cases hany : m.any (fun e => e.1 == n) = true
  · rw [if_pos hany]
    cases hk : lookupFind m k with
    | some x => rfl
    | none =>
      have hnk : ¬ n = k := by
        intro hnk
        subst hnk
        simp only [lookupFind, Option.map_eq_none', List.find?_eq_none] at hk
        simp only [List.any_eq_true] at hany
        obtain ⟨e, he, h2⟩ := hany
        exact hk e he h2
      simp [hnk]
  · rw [if_neg hany]
    cases hk : lookupFind m k with
    | some x =>
      simp only [lookupFind, Option.map_eq_some'] at hk ⊢
      obtain ⟨e, he, rfl⟩ := hk
      exact ⟨e, by simp [List.find?_append, he], rfl⟩
    | none =>
      simp only [lookupFind, Option.map_eq_none'] at hk
      simp only [lookupFind, List.find?_append, hk, Option.none_or]
      by_cases hnk : n = k
      · simp [hnk]
      · simp [hnk]

theorem lookupFind_foldl (vs : List variable_description) (m : var_lookup) (k : Str) :
    lookupFind (vs.foldl (fun m var => emplace m var.name var) m) k =
      match lookupFind m k with
      | some x => some x
      | none => vs.find? (fun var => var.name == k) := by
  induction vs generalizing m with
  | nil => cases h : lookupFind m k <;> simp [h]
  | cons v vs ih =>
    rw [List.foldl_cons, ih, lookupFind_emplace]
    cases lookupFind m k with
    | some x => rfl
    | none =>
      by_cases hv : v.name = k
      · simp [hv]
      · simp [hv]

/-- The lookup through `fastVarLookup` is the lookup in the catalogue. -/
theorem lookupFind_fastVarLookup (md : model_description) (k : Str) :
    lookupFind (fastVarLookup md) k = catalog_variable md k := by
  unfold fastVarLookup catalog_variable
  rw [lookupFind_foldl]
  rfl

/-! ## Lemmas on `parse_initial_values` -/

/-- What one accepted argument adds to the values collected so far. -/
theorem parse_arg_ok {ρ : Type} (cv : Conversions ρ) (md : model_description)
    (v0 v1 : variable_values ρ) (a : Str)
    (h : parse_arg cv (fastVarLookup md) v0 a = .ok v1) :
    '=' ∈ a ∧
    (v1.realVariables.map some = v0.realVariables.map some ++
        (if has_type md .real a then [arg_reference md a] else []) ∧
      v1.realValues.map some = v0.realValues.map some ++
        (if has_type md .real a then [cv.castReal (arg_value a)] else [])) ∧
    (v1.integerVariables.map some = v0.integerVariables.map some ++
        (if has_type md .integer a then [arg_reference md a] else []) ∧
      v1.integerValues.map some = v0.integerValues.map some ++
        (if has_type md .integer a then [cv.castInt (arg_value a)] else [])) ∧
    (v1.booleanVariables.map some = v0.booleanVariables.map some ++
        (if has_type md .boolean a then [arg_reference md a] else []) ∧
      v1.booleanValues.map some = v0.booleanValues.map some ++
        (if has_type md .boolean a then [boolean_of_text (arg_value a)] else [])) ∧
    (v1.stringVariables.map some = v0.stringVariables.map some ++
        (if has_type md .string a then [arg_reference md a] else []) ∧
      v1.stringValues.map some = v0.stringValues.map some ++
        (if has_type md .string a then [some (arg_value a)] else [])) := by
  unfold parse_arg at h
  cases hf : find '=' a with
  | none => simp [hf] at h
  | some p =>
    have hmem : '=' ∈ a := by
      by_contra hc
      rw [(find_eq_none_iff '=' a).mpr hc] at hf
      cases hf
    obtain ⟨hn, hval⟩ := find_some_split a p hf
    simp only [hf, hn, hval, lookupFind_fastVarLookup] at h
    cases hv : catalog_variable md (arg_name a) with
    | none => simp [hv] at h
    | some var =>
      simp only [hv] at h
      split at h
      · cases h
      · refine ⟨hmem, ?_⟩
        unfold push_value at h
        cases ht : var.type <;> simp only [ht] at h
        · cases hc : cv.castReal (arg_value a) <;> simp only [hc] at h
          · cases h
          · cases h
            simp [has_type, arg_reference, arg_variable, hmem, hv, ht, hc]
        · cases hc : cv.castInt (arg_value a) <;> simp only [hc] at h
          · cases h
          · cases h
            simp [has_type, arg_reference, arg_variable, hmem, hv, ht, hc]
        · by_cases h1 : arg_value a = "true".toList
          · rw [if_pos h1] at h
            cases h
            simp [has_type, arg_reference, arg_variable, hmem, hv, ht, boolean_of_text, h1]
          · rw [if_neg h1] at h
            by_cases h2 : arg_value a = "false".toList
            · rw [if_pos h2] at h
              cases h
              simp [has_type, arg_reference, arg_variable, hmem, hv, ht, boolean_of_text, h2]
            · rw [if_neg h2] at h
              cases h
        · cases h
          simp [has_type, arg_reference, arg_variable, hmem, hv, ht]
        · split at h
          · cases h
            simp [has_type, arg_reference, arg_variable, hmem, hv, ht]
          · cases h

/-- What an accepted argument list adds to the values collected so far. -/
theorem parse_args_ok {ρ : Type} (cv : Conversions ρ) (md : model_description)
    (args : List Str) (v0 v : variable_values ρ)
    (h : parse_args cv (fastVarLookup md) v0 args = .ok v) :
    (∀ a ∈ args, '=' ∈ a) ∧
    (v.realVariables.map some = v0.realVariables.map some ++
        (args.filter (has_type md .real)).map (arg_reference md) ∧
      v.realValues.map some = v0.realValues.map some ++
        (args.filter (has_type md .real)).map (fun a => cv.castReal (arg_value a))) ∧
    (v.integerVariables.map some = v0.integerVariables.map some ++
        (args.filter (has_type md .integer)).map (arg_reference md) ∧
      v.integerValues.map some = v0.integerValues.map some ++
        (args.filter (has_type md .integer)).map (fun a => cv.castInt (arg_value a))) ∧
    (v.booleanVariables.map some = v0.booleanVariables.map some ++
        (args.filter (has_type md .boolean)).map (arg_reference md) ∧
      v.booleanValues.map some = v0.booleanValues.map some ++
        (args.filter (has_type md .boolean)).map (fun a => boolean_of_text (arg_value a))) ∧
    (v.stringVariables.map some = v0.stringVariables.map some ++
        (args.filter (has_type md .string)).map (arg_reference md) ∧
      v.stringValues.map some = v0.stringValues.map some ++
        (args.filter (has_type md .string)).map (fun a => some (arg_value a))) := by
  induction args generalizing v0 with
  | nil =>
    simp only [parse_args] at h
    cases h
    simp
  | cons a rest ih =>
    simp only [parse_args] at h
    cases hpa : parse_arg cv (fastVarLookup md) v0 a with
    | error e => simp [hpa] at h
    | ok v1 =>
      simp only [hpa] at h
      obtain ⟨hm, ⟨r1, r2⟩, ⟨i1, i2⟩, ⟨b1, b2⟩, ⟨s1, s2⟩⟩ := parse_arg_ok cv md v0 v1 a hpa
      obtain ⟨hm2, ⟨R1, R2⟩, ⟨I1, I2⟩, ⟨B1, B2⟩, ⟨S1, S2⟩⟩ := ih v1 h
      refine ⟨?_, ⟨?_, ?_⟩, ⟨?_, ?_⟩, ⟨?_, ?_⟩, ⟨?_, ?_⟩⟩
      · intro x hx
        rcases List.mem_cons.mp hx with rfl | hx
        · exact hm
        · exact hm2 x hx
      · rw [R1, r1, List.filter_cons]; split <;> simp
      · rw [R2, r2, List.filter_cons]; split <;> simp
      · rw [I1, i1, List.filter_cons]; split <;> simp
      · rw [I2, i2, List.filter_cons]; split <;> simp
      · rw [B1, b1, List.filter_cons]; split <;> simp
      · rw [B2, b2, List.filter_cons]; split <;> simp
      · rw [S1, s1, List.filter_cons]; split <;> simp
      · rw [S2, s2, List.filter_cons]; split <;> simp

/-- The loop over a concatenation runs over the first part, then over the
second from what the first collected. -/
theorem parse_args_append {ρ : Type} (cv : Conversions ρ) (lk : var_lookup)
    (pre rest : List Str) (v0 : variable_values ρ) :
    parse_args cv lk v0 (pre ++ rest) =
      match parse_args cv lk v0 pre with
      | .ok v => parse_args cv lk v rest
      | .error e => .error e := by
  induction pre generalizing v0 with
  | nil => simp [parse_args]
  | cons a pre ih =>
    simp only [List.cons_append, parse_args]
    cases parse_arg cv lk v0 a with
    | error e => rfl
    | ok v1 => exact ih v1

/-- An argument that is rejected whatever has been collected makes every list
that contains it fail. -/
theorem parse_args_fails_of_mem {ρ : Type} (cv : Conversions ρ) (lk : var_lookup)
    (a : Str) (ha : ∀ v, ∃ e, parse_arg cv lk v a = .error e)
    (args : List Str) (hmem : a ∈ args) (v0 : variable_values ρ) :
    ∃ e, parse_args cv lk v0 args = .error e := by
  induction args generalizing v0 with
  | nil => cases hmem
  | cons x rest ih =>
    simp only [parse_args]
    cases hx : parse_arg cv lk v0 x with
    | error e => exact ⟨e, rfl⟩
    | ok v1 =>
      rcases List.mem_cons.mp hmem with rfl | hr
      · obtain ⟨e, he⟩ := ha v0
        rw [he] at hx
        cases hx
      · exact ih hr v1

/-- An argument that names a variable which is not settable is rejected with
"Cannot initialise variable", whatever has been collected. -/
theorem parse_arg_not_settable {ρ : Type} (cv : Conversions ρ) (md : model_description)
    (a : Str) (var : variable_description) (hvar : arg_variable md a = some var)
    (hc : ¬ settable var) (v : variable_values ρ) :
    parse_arg cv (fastVarLookup md) v a = .error (.cannot_initialise (arg_name a)) := by
  unfold arg_variable at hvar
  split at hvar
  · rename_i hmem
    cases hf : find '=' a with
    | none => exact absurd hmem ((find_eq_none_iff '=' a).mp hf)
    | some p =>
      obtain ⟨hn, hval⟩ := find_some_split a p hf
      unfold parse_arg
      simp only [hf, hn, hval, lookupFind_fastVarLookup, hvar]
      rw [if_pos]
      unfold settable at hc
      push_neg at hc
      exact hc
  · cases hvar

/-- An argument without `=` is rejected with "Invalid initial value
specification", whatever the catalogue and whatever has been collected. -/
theorem parse_arg_malformed {ρ : Type} (cv : Conversions ρ) (lk : var_lookup)
    (a : Str) (ha : '=' ∉ a) (v : variable_values ρ) :
    parse_arg cv lk v a = .error (.invalid_specification a) := by
  unfold parse_arg
  rw [(find_eq_none_iff '=' a).mpr ha]

/-! ## Lemmas on the stepping loop -/

theorem recorded_times_append {ρ : Type} (l1 l2 : List (event ρ)) :
    recorded_times (l1 ++ l2) = recorded_times l1 ++ recorded_times l2 := by
  simp [recorded_times, List.filterMap_append]

theorem do_step_calls_append {ρ : Type} (l1 l2 : List (event ρ)) :
    do_step_calls (l1 ++ l2) = do_step_calls l1 ++ do_step_calls l2 := by
  simp [do_step_calls, List.filterMap_append]

/-- No iteration is left once the time has reached the end. -/
theorem iterations_done (t e s : Int) (hs : 0 < s) (h : ¬ t < e) : iterations t e s = 0 := by
  unfold iterations
  have h1 : ((e - t : Int) : ℚ) / (s : ℚ) ≤ 0 := by
    apply div_nonpos_of_nonpos_of_nonneg
    · exact_mod_cast (by omega : e - t ≤ 0)
    · exact_mod_cast hs.le
  have h2 : ⌈((e - t : Int) : ℚ) / (s : ℚ)⌉ ≤ 0 := by
    rw [Int.ceil_le]
    exact_mod_cast h1
  omega

/-- A last, shortened step is the only one left when the distance to the end
is at most one step. -/
theorem iterations_last (t e s : Int) (h : t < e) (h2 : e - t ≤ s) :
    iterations t e s = 1 := by
  unfold iterations
  have hs : (0 : ℚ) < (s : ℚ) := by exact_mod_cast (by omega : 0 < s)
  have h3 : ⌈((e - t : Int) : ℚ) / (s : ℚ)⌉ = 1 := by
    rw [Int.ceil_eq_iff]
    constructor
    · have : (0 : ℚ) < ((e - t : Int) : ℚ) := by exact_mod_cast (by omega : 0 < e - t)
      simpa using div_pos this hs
    · rw [div_le_iff₀ hs]
      exact_mod_cast (by omega : e - t ≤ 1 * s)
  rw [h3]
  rfl

/-- A full step leaves one iteration less. -/
theorem iterations_step (t e s : Int) (hs : 0 < s) (h2 : s < e - t) :
    iterations t e s = iterations (t + s) e s + 1 := by
  unfold iterations
  have hsq : (0 : ℚ) < (s : ℚ) := by exact_mod_cast hs
  have h3 : ((e - t : Int) : ℚ) / (s : ℚ) = ((e - (t + s) : Int) : ℚ) / (s : ℚ) + 1 := by
    field_simp
    ring
  have h4 : 0 < ⌈((e - (t + s) : Int) : ℚ) / (s : ℚ)⌉ := by
    rw [Int.ceil_pos]
    apply div_pos _ hsq
    exact_mod_cast (by omega : 0 < e - (t + s))
  rw [h3, Int.ceil_add_one]
  omega

/-- A recording that meets no failure logs the read and appends one row. -/
theorem update_ok {σ ρ : Type} (env : collaborators σ ρ) (w : csv_output_writer) (t : Int)
    (st : run_state σ ρ)
    (hread : ∀ s r i b z, (env.simulator.get_variables s r i b z).isSome)
    (hwrite : ∀ c l, env.write_ok c l = true) :
    ∃ line, csv_output_writer.update env w t st =
      ({ sim := st.sim,
         log := st.log ++ [.get_variables w.realVariables_ w.integerVariables_
           w.booleanVariables_ w.stringVariables_, .write_row t line],
         output := some (st.output.getD [] ++ line) }, .ok ()) := by
  unfold csv_output_writer.update
  have h := hread st.sim w.realVariables_ w.integerVariables_ w.booleanVariables_
    w.stringVariables_
  cases hg : env.simulator.get_variables st.sim w.realVariables_ w.integerVariables_
      w.booleanVariables_ w.stringVariables_ with
  | none => simp [hg] at h
  | some values =>
    refine ⟨row_line env.rendering t values, ?_⟩
    simp [hg, hwrite]

/-- The stepping loop when no step and no recording fails: it returns, having
made `iterations t end_time stepSize` steps, the `k`-th of them asked at time
`t + k * stepSize` with the length `stepSize` and followed by a row for the
time `min (t + (k + 1) * stepSize) end_time`. -/
theorem step_loop_complete {σ ρ : Type} (env : collaborators σ ρ) (e s : Int) (hs : 0 < s)
    (w : csv_output_writer)
    (hstep : ∀ z t dt, (env.simulator.do_step z t dt).1 = .complete)
    (hread : ∀ z r i b x, (env.simulator.get_variables z r i b x).isSome)
    (hwrite : ∀ c l, env.write_ok c l = true) :
    ∀ (n : Nat) (t : Int) (st : run_state σ ρ), (e - t).toNat ≤ n →
      ∃ st', step_loop env e s hs w t st = (st', .ok ()) ∧
        recorded_times st'.log = recorded_times st.log ++
          (List.range (iterations t e s)).map (fun (k : Nat) => min (t + ((k : Int) + 1) * s) e) ∧
        do_step_calls st'.log = do_step_calls st.log ++
          (List.range (iterations t e s)).map (fun (k : Nat) => (t + (k : Int) * s, s)) := by
  intro n
  induction n with
  | zero =>
    intro t st hn
    have hte : ¬ t < e := by omega
    rw [step_loop, dif_neg hte, iterations_done t e s hs hte]
    exact ⟨st, rfl, by simp, by simp⟩
  | succ n ih =>
    intro t st hn
    by_cases hte : t < e
    · rw [step_loop, dif_pos hte]
      simp only [hstep, ne_eq, not_true_eq_false, if_false]
      obtain ⟨line, hu⟩ := update_ok env w (t + min (e - t) s)
        { sim := (env.simulator.do_step st.sim t s).2, log := st.log ++ [.do_step t s],
          output := st.output } hread hwrite
      rw [hu]
      simp only
      have hdt : 0 < min (e - t) s := lt_min (by omega) hs
      obtain ⟨st', h1, h2, h3⟩ := ih (t + min (e - t) s)
        { sim := (env.simulator.do_step st.sim t s).2,
          log := st.log ++ [.do_step t s] ++ [.get_variables w.realVariables_
            w.integerVariables_ w.booleanVariables_ w.stringVariables_,
            .write_row (t + min (e - t) s) line] ++
            [.sleep (t + min (e - t) s), .progress (t + min (e - t) s)],
          output := some (st.output.getD [] ++ line) } (by omega)
      refine ⟨st', h1, ?_, ?_⟩
      · rw [h2]
        by_cases hlast : e - t ≤ s
        · have hmin : min (e - t) s = e - t := min_eq_left hlast
          have hend : t + (e - t) = e := by ring
          rw [hmin, hend, iterations_done e e s hs (lt_irrefl e), iterations_last t e s hte hlast]
          have hm : min (t + s) e = e := min_eq_right (by omega)
          simp [recorded_times, hm, List.range_succ]
        · have hlast2 : s < e - t := by omega
          have hmin : min (e - t) s = s := min_eq_right hlast2.le
          rw [hmin, iterations_step t e s hs hlast2, List.range_succ_eq_map]
          have hm : min (t + s) e = t + s := min_eq_left (by omega)
          simp only [recorded_times, List.filterMap_append, List.filterMap_cons,
            List.filterMap_nil, List.append_nil, List.map_cons, List.map_map,
            List.append_assoc, List.singleton_append, List.nil_append]
          congr 2
          · simp [hm]
          · apply List.map_congr_left
            intro k _
            simp only [Function.comp, Nat.succ_eq_add_one]
            push_cast
            ring_nf
      · rw [h3]
        by_cases hlast : e - t ≤ s
        · have hmin : min (e - t) s = e - t := min_eq_left hlast
          have hend : t + (e - t) = e := by ring
          rw [hmin, hend, iterations_done e e s hs (lt_irrefl e), iterations_last t e s hte hlast]
          simp [do_step_calls, List.range_succ]
        · have hlast2 : s < e - t := by omega
          have hmin : min (e - t) s = s := min_eq_right hlast2.le
          rw [hmin, iterations_step t e s hs hlast2, List.range_succ_eq_map]
          simp only [do_step_calls, List.filterMap_append, List.filterMap_cons,
            List.filterMap_nil, List.append_nil, List.map_cons, List.map_map,
            List.append_assoc, List.singleton_append, List.nil_append]
          congr 2
          · simp
          · apply List.map_congr_left
            intro k _
            simp only [Function.comp, Nat.succ_eq_add_one]
            push_cast
            ring_nf
    · rw [step_loop, dif_neg hte, iterations_done t e s hs hte]
      exact ⟨st, rfl, by simp, by simp⟩

/-! ## Lemmas on the run as a whole -/

/-- The walk over the catalogue does not abort in a build without assertions,
nor on a catalogue of the four scalar types. -/
theorem collect_headers_some {ρ : Type} (rd : Rendering ρ) (nd : Bool)
    (vs : List variable_description)
    (hcat : nd = true ∨ ∀ var ∈ vs, var.type ≠ .other)
    (acc : var_headers × csv_output_writer) :
    ∃ r, collect_headers rd nd acc vs = some r := by
  induction vs generalizing acc with
  | nil => exact ⟨acc, by simp [collect_headers]⟩
  | cons v vs ih =>
    have hcat2 : nd = true ∨ ∀ var ∈ vs, var.type ≠ .other := by
      rcases hcat with h | h
      · exact Or.inl h
      · exact Or.inr (fun var hv => h var (List.mem_cons_of_mem _ hv))
    obtain ⟨h, w⟩ := acc
    unfold collect_headers
    cases ht : v.type <;> simp only
    · exact ih hcat2 _
    · exact ih hcat2 _
    · exact ih hcat2 _
    · exact ih hcat2 _
    · rcases hcat with h | h
      · rw [if_pos h]
        exact ih hcat2 _
      · exact absurd ht (h v (List.mem_cons_self _ _))

/-- The constructor of the writer, when the file system does not fail and the
walk does not abort: the file is opened and holds the header line. -/
theorem create_ok {σ ρ : Type} (env : collaborators σ ρ) (f : Str) (st : run_state σ ρ)
    (hopen : env.open_ok = true) (hwrite : ∀ c l, env.write_ok c l = true)
    (hcat : env.conversions.ndebug = true ∨
      ∀ var ∈ env.description.variables_, var.type ≠ .other) :
    ∃ w line, csv_output_writer.create env f st =
      ({ sim := st.sim, log := st.log ++ [.open_output f, .write_header line],
         output := some line }, .ok w) := by
  obtain ⟨⟨h, w⟩, hr⟩ := collect_headers_some env.rendering env.conversions.ndebug
    env.description.variables_ hcat ({}, {})
  refine ⟨w, header_line h, ?_⟩
  unfold csv_output_writer.create
  simp [hopen, hr, hwrite]

/-- The run when nothing fails: it returns 0, the rows in the output are the
one for `begin_time` and one per step, and the steps are those of the loop. -/
theorem run_complete {σ ρ : Type} (env : collaborators σ ρ) (args : run_options) (sim : σ)
    (hs : 0 < args.stepSize)
    (hstep : ∀ z t dt, (env.simulator.do_step z t dt).1 = .complete)
    (hread : ∀ z r i b x, (env.simulator.get_variables z r i b x).isSome)
    (hopen : env.open_ok = true) (hwrite : ∀ c l, env.write_ok c l = true)
    (hinit : ∀ l, args.initial_value = some l →
      ∃ v, parse_initial_values env.conversions l env.description = .ok v)
    (hcat : env.conversions.ndebug = true ∨
      ∀ var ∈ env.description.variables_, var.type ≠ .other) :
    (run env args sim).result = .ok 0 ∧
    recorded_times (run env args sim).state.log = args.begin_time ::
      (List.range (iterations args.begin_time args.end_time args.stepSize)).map
        (fun (k : Nat) => min (args.begin_time + ((k : Int) + 1) * args.stepSize) args.end_time) ∧
    do_step_calls (run env args sim).state.log =
      (List.range (iterations args.begin_time args.end_time args.stepSize)).map
        (fun (k : Nat) => (args.begin_time + (k : Int) * args.stepSize, args.stepSize)) := by
  have key : ∀ (st : run_state σ ρ), recorded_times st.log = [] → do_step_calls st.log = [] →
      ∀ (o : run_outcome σ ρ),
      o = (match csv_output_writer.create env args.output_file st with
        | (st, .error e) => ⟨st, .error e⟩
        | (st, .ok output) =>
          match output.update env args.begin_time
              { st with log := st.log ++ [.start_simulation],
                        sim := env.simulator.start_simulation st.sim } with
          | (st, .error e) => ⟨st, .error e⟩
          | (st, .ok _) =>
            match step_loop env args.end_time args.stepSize hs output args.begin_time st with
            | (st, .error e) => ⟨st, .error e⟩
            | (st, .ok _) => ⟨end_simulation env st, .ok 0⟩) →
      o.result = .ok 0 ∧
      recorded_times o.state.log = args.begin_time ::
        (List.range (iterations args.begin_time args.end_time args.stepSize)).map
          (fun (k : Nat) => min (args.begin_time + ((k : Int) + 1) * args.stepSize) args.end_time) ∧
      do_step_calls o.state.log =
        (List.range (iterations args.begin_time args.end_time args.stepSize)).map
          (fun (k : Nat) => (args.begin_time + (k : Int) * args.stepSize, args.stepSize)) := by
    intro st hr hd o ho
    obtain ⟨w, line, hc⟩ := create_ok env args.output_file st hopen hwrite hcat
    rw [hc] at ho
    simp only at ho
    obtain ⟨line2, hu⟩ := update_ok env w args.begin_time
      { sim := env.simulator.start_simulation st.sim,
        log := st.log ++ [.open_output args.output_file, .write_header line] ++
          [.start_simulation],
        output := some line } hread hwrite
    rw [hu] at ho
    simp only at ho
    obtain ⟨st', hl, hl2, hl3⟩ := step_loop_complete env args.end_time args.stepSize hs w
      hstep hread hwrite _ args.begin_time
      { sim := env.simulator.start_simulation st.sim,
        log := st.log ++ [.open_output args.output_file, .write_header line] ++
          [.start_simulation] ++ [.get_variables w.realVariables_ w.integerVariables_
            w.booleanVariables_ w.stringVariables_, .write_row args.begin_time line2],
        output := some ((some line).getD [] ++ line2) } (le_refl _)
    rw [hl] at ho
    simp only at ho
    subst ho
    refine ⟨rfl, ?_, ?_⟩
    · simp only [end_simulation, recorded_times_append, hl2, hr]
      simp [recorded_times]
    · simp only [end_simulation, do_step_calls_append, hl3, hd]
      simp [do_step_calls]
  unfold run
  rw [dif_neg (not_le.mpr hs)]
  cases hiv : args.initial_value with
  | none =>
    simp only
    exact key _ (by simp [recorded_times]) (by simp [do_step_calls]) _ rfl
  | some l =>
    obtain ⟨v, hv⟩ := hinit l hiv
    simp only [hv, Except.map]
    exact key _ (by simp [recorded_times]) (by simp [do_step_calls]) _ rfl

/-- An argument that names a settable variable goes on to the conversion. -/
theorem parse_arg_settable {ρ : Type} (cv : Conversions ρ) (md : model_description)
    (a : Str) (var : variable_description) (hvar : arg_variable md a = some var)
    (hc : settable var) (v : variable_values ρ) :
    parse_arg cv (fastVarLookup md) v a = push_value cv v var (arg_name a) (arg_value a) := by
  unfold arg_variable at hvar
  split at hvar
  · rename_i hmem
    cases hf : find '=' a with
    | none => exact absurd hmem ((find_eq_none_iff '=' a).mp hf)
    | some p =>
      obtain ⟨hn, hval⟩ := find_some_split a p hf
      unfold parse_arg
      simp only [hf, hn, hval, lookupFind_fastVarLookup, hvar]
      rw [if_neg]
      unfold settable at hc
      tauto
  · cases hvar

/-- A list of one argument is parsed by the loop body from the empty values. -/
theorem parse_single {ρ : Type} (cv : Conversions ρ) (md : model_description) (a : Str) :
    parse_initial_values cv [a] md = parse_arg cv (fastVarLookup md) {} a := by
  unfold parse_initial_values
  simp only [parse_args]
  cases parse_arg cv (fastVarLookup md) {} a <;> rfl

/-- The argument made of a name without `=`, an `=` and a value names the
variable that the name resolves to. -/
theorem arg_variable_append (md : model_description) (n v : Str) (hn : '=' ∉ n) :
    arg_variable md (n ++ '=' :: v) = catalog_variable md n := by
  unfold arg_variable
  rw [if_pos (by simp), arg_name_append n v hn]

/-! ## The claims -/

/-- C1: with a positive step size, `begin_time < end_time`, a simulator whose
steps all complete, and no failure of the set-up, of the reads or of the
output stream, the run returns 0 having recorded exactly
`ceil ((end_time - begin_time) / step_size) + 1` rows: the one for
`begin_time` and one per `do_step` call.  The last row is for `end_time`
exactly.  When the step size equals `end_time - begin_time` there is exactly
one `do_step` call and there are two rows. -/
theorem C1_rows_recorded {σ ρ : Type} (env : collaborators σ ρ) (args : run_options) (sim : σ)
    (hs : 0 < args.stepSize) (hbe : args.begin_time < args.end_time)
    (hstep : ∀ z t dt, (env.simulator.do_step z t dt).1 = .complete)
    (hread : ∀ z r i b x, (env.simulator.get_variables z r i b x).isSome)
    (hopen : env.open_ok = true) (hwrite : ∀ c l, env.write_ok c l = true)
    (hinit : ∀ l, args.initial_value = some l →
      ∃ v, parse_initial_values env.conversions l env.description = .ok v)
    (hcat : env.conversions.ndebug = true ∨
      ∀ var ∈ env.description.variables_, var.type ≠ .other) :
    (run env args sim).result = .ok 0 ∧
    ((recorded_times (run env args sim).state.log).length : Int) =
      ⌈((args.end_time - args.begin_time : Int) : ℚ) / (args.stepSize : ℚ)⌉ + 1 ∧
    (recorded_times (run env args sim).state.log).head? = some args.begin_time ∧
    (recorded_times (run env args sim).state.log).length =
      (do_step_calls (run env args sim).state.log).length + 1 ∧
    (recorded_times (run env args sim).state.log).getLast? = some args.end_time ∧
    (args.stepSize = args.end_time - args.begin_time →
      (do_step_calls (run env args sim).state.log).length = 1 ∧
      (recorded_times (run env args sim).state.log).length = 2) := by
  obtain ⟨hres, hrec, hdo⟩ := run_complete env args sim hs hstep hread hopen hwrite hinit hcat
  have hsq : (0 : ℚ) < (args.stepSize : ℚ) := by exact_mod_cast hs
  have hpos : 0 < ⌈((args.end_time - args.begin_time : Int) : ℚ) / (args.stepSize : ℚ)⌉ := by
    rw [Int.ceil_pos]
    apply div_pos _ hsq
    exact_mod_cast (by omega : 0 < args.end_time - args.begin_time)
  have hN : ((iterations args.begin_time args.end_time args.stepSize : Nat) : Int) =
      ⌈((args.end_time - args.begin_time : Int) : ℚ) / (args.stepSize : ℚ)⌉ := by
    unfold iterations
    exact Int.toNat_of_nonneg hpos.le
  refine ⟨hres, ?_, ?_, ?_, ?_, ?_⟩
  · rw [hrec]
    simp only [List.length_cons, List.length_map, List.length_range]
    rw [Nat.cast_add, Nat.cast_one, hN]
  · rw [hrec]
    rfl
  · rw [hrec, hdo]
    simp
  · rw [hrec]
    obtain ⟨m, hm⟩ : ∃ m, iterations args.begin_time args.end_time args.stepSize = m + 1 :=
      ⟨iterations args.begin_time args.end_time args.stepSize - 1, by omega⟩
    have hle : ((args.end_time - args.begin_time : Int) : ℚ) / (args.stepSize : ℚ) ≤
        ((m : Int) + 1 : Int) := by
      have := Int.le_ceil (((args.end_time - args.begin_time : Int) : ℚ) / (args.stepSize : ℚ))
      rw [← hN, hm] at this
      exact_mod_cast this
    rw [div_le_iff₀ hsq] at hle
    have hle2 : args.end_time - args.begin_time ≤ ((m : Int) + 1) * args.stepSize := by
      exact_mod_cast hle
    have hmin : min (args.begin_time + ((m : Int) + 1) * args.stepSize) args.end_time =
        args.end_time := min_eq_right (by omega)
    rw [hm, List.range_succ, List.map_append, List.map_singleton, hmin, ← List.cons_append,
      List.getLast?_append]
    simp
  · intro hstep_eq
    have h1 : iterations args.begin_time args.end_time args.stepSize = 1 :=
      iterations_last _ _ _ hbe (by omega)
    rw [hrec, hdo, h1]
    simp

/-- C1 at the sample run from 0 to 3 in steps of 2: the run returns 0 with
the rows of times 0, 2 and 3, the last one for the end time. -/
theorem C1_rows_recorded_witness :
    (run sample_env sample_options ()).result = .ok 0 ∧
    ((recorded_times (run sample_env sample_options ()).state.log).length : Int) =
      ⌈((sample_options.end_time - sample_options.begin_time : Int) : ℚ) /
        (sample_options.stepSize : ℚ)⌉ + 1 ∧
    (recorded_times (run sample_env sample_options ()).state.log).head? =
      some sample_options.begin_time ∧
    (recorded_times (run sample_env sample_options ()).state.log).length =
      (do_step_calls (run sample_env sample_options ()).state.log).length + 1 ∧
    (recorded_times (run sample_env sample_options ()).state.log).getLast? =
      some sample_options.end_time :=
  have h := C1_rows_recorded sample_env sample_options () (by decide) (by decide)
    (fun _ _ _ => rfl) (fun _ _ _ _ _ => rfl) rfl (fun _ _ => rfl)
    (fun l h => by cases Option.some.inj h; exact ⟨_, rfl⟩) (Or.inl rfl)
  ⟨h.1, h.2.1, h.2.2.1, h.2.2.2.1, h.2.2.2.2.1⟩

/-- C2: the code at the run from 0 to 3 in steps of 2.  The second and last
`do_step` call is made at time 2 with the full step 2, where the clamped step
`min 2 (3 - 2)` is 1: the simulator is asked to advance to 4, past the end
time 3. -/
theorem C2_last_step_not_clamped :
    do_step_calls (run sample_env sample_options ()).state.log = [(0, 2), (2, 2)] ∧
    ∃ call ∈ do_step_calls (run sample_env sample_options ()).state.log,
      call.2 ≠ min sample_options.stepSize (sample_options.end_time - call.1) ∧
      sample_options.end_time < call.1 + call.2 := by
  have h := (run_complete sample_env sample_options () (by decide)
    (fun _ _ _ => rfl) (fun _ _ _ _ _ => rfl) rfl (fun _ _ => rfl)
    (fun l h => by cases Option.some.inj h; exact ⟨_, rfl⟩) (Or.inl rfl)).2.2
  have hn : iterations sample_options.begin_time sample_options.end_time
      sample_options.stepSize = 2 := by
    show iterations 0 3 2 = 2
    rw [iterations_step 0 3 2 (by decide) (by decide),
      iterations_last (0 + 2) 3 2 (by decide) (by decide)]
  rw [hn] at h
  have h2 : do_step_calls (run sample_env sample_options ()).state.log = [(0, 2), (2, 2)] := by
    rw [h]
    decide
  refine ⟨h2, ?_⟩
  rw [h2]
  exact ⟨(2, 2), by simp, by decide, by decide⟩

/-- C3: when `parse_initial_values` succeeds, for each of the four types the
value sequence has as many entries as there are arguments that name a variable
of that type, and it is, position by position, what the right-hand sides of
those arguments, in argument order, convert to. -/
theorem C3_values_in_argument_order {ρ : Type} (cv : Conversions ρ) (md : model_description)
    (args : List Str) (v : variable_values ρ)
    (h : parse_initial_values cv args md = .ok v) :
    (v.realValues.length = args.countP (has_type md .real) ∧
      v.realValues.map some =
        (args.filter (has_type md .real)).map (fun a => cv.castReal (arg_value a))) ∧
    (v.integerValues.length = args.countP (has_type md .integer) ∧
      v.integerValues.map some =
        (args.filter (has_type md .integer)).map (fun a => cv.castInt (arg_value a))) ∧
    (v.booleanValues.length = args.countP (has_type md .boolean) ∧
      v.booleanValues.map some =
        (args.filter (has_type md .boolean)).map (fun a => boolean_of_text (arg_value a))) ∧
    (v.stringValues.length = args.countP (has_type md .string) ∧
      v.stringValues = (args.filter (has_type md .string)).map arg_value) := by
  obtain ⟨_, ⟨_, R⟩, ⟨_, I⟩, ⟨_, B⟩, ⟨_, S⟩⟩ := parse_args_ok cv md args {} v h
  simp only [List.map_nil, List.nil_append] at R I B S
  have len : ∀ {α β : Type} (l : List α) (f : Str → Option α) (T : variable_type),
      l.map some = (args.filter (has_type md T)).map f →
      l.length = args.countP (has_type md T) := by
    intro α β l f T hl
    have := congrArg List.length hl
    simpa [List.countP_eq_length_filter] using this
  refine ⟨⟨len (β := Unit) _ _ _ R, R⟩, ⟨len (β := Unit) _ _ _ I, I⟩,
    ⟨len (β := Unit) _ _ _ B, B⟩, ⟨len (β := Unit) _ _ _ S, ?_⟩⟩
  have hS : v.stringValues.map some =
      ((args.filter (has_type md .string)).map arg_value).map some := by
    rw [S, List.map_map]
    rfl
  exact List.map_injective_iff.mpr (Option.some_injective _) hS

/-- C3 at the sample catalogue and the sample argument list. -/
theorem C3_values_in_argument_order_witness :
    (sample_values.realValues.length = sample_args.countP (has_type sample_description .real) ∧
      sample_values.realValues.map some =
        (sample_args.filter (has_type sample_description .real)).map
          (fun a => sample_conversions.castReal (arg_value a))) ∧
    (sample_values.integerValues.length =
        sample_args.countP (has_type sample_description .integer) ∧
      sample_values.integerValues.map some =
        (sample_args.filter (has_type sample_description .integer)).map
          (fun a => sample_conversions.castInt (arg_value a))) ∧
    (sample_values.booleanValues.length =
        sample_args.countP (has_type sample_description .boolean) ∧
      sample_values.booleanValues.map some =
        (sample_args.filter (has_type sample_description .boolean)).map
          (fun a => boolean_of_text (arg_value a))) ∧
    (sample_values.stringValues.length =
        sample_args.countP (has_type sample_description .string) ∧
      sample_values.stringValues =
        (sample_args.filter (has_type sample_description .string)).map arg_value) :=
  C3_values_in_argument_order sample_conversions sample_description sample_args
    sample_values rfl

/-- C4: when `parse_initial_values` succeeds, in each of the four type groups
the reference sequence and the value sequence have equal length, and both come
position by position from one sequence of arguments, those that name a
variable of the type in argument order: the reference at a position is the
reference id of the catalogue variable that the argument names, the value at
that position is what the right-hand side of the same argument converts to. -/
theorem C4_references_pair_with_values {ρ : Type} (cv : Conversions ρ)
    (md : model_description) (args : List Str) (v : variable_values ρ)
    (h : parse_initial_values cv args md = .ok v) :
    (v.realVariables.length = v.realValues.length ∧
      v.realVariables.map some = (args.filter (has_type md .real)).map (arg_reference md) ∧
      v.realValues.map some =
        (args.filter (has_type md .real)).map (fun a => cv.castReal (arg_value a))) ∧
    (v.integerVariables.length = v.integerValues.length ∧
      v.integerVariables.map some =
        (args.filter (has_type md .integer)).map (arg_reference md) ∧
      v.integerValues.map some =
        (args.filter (has_type md .integer)).map (fun a => cv.castInt (arg_value a))) ∧
    (v.booleanVariables.length = v.booleanValues.length ∧
      v.booleanVariables.map some =
        (args.filter (has_type md .boolean)).map (arg_reference md) ∧
      v.booleanValues.map some =
        (args.filter (has_type md .boolean)).map (fun a => boolean_of_text (arg_value a))) ∧
    (v.stringVariables.length = v.stringValues.length ∧
      v.stringVariables.map some =
        (args.filter (has_type md .string)).map (arg_reference md) ∧
      v.stringValues.map some =
        (args.filter (has_type md .string)).map (fun a => some (arg_value a))) := by
  obtain ⟨_, ⟨R1, R2⟩, ⟨I1, I2⟩, ⟨B1, B2⟩, ⟨S1, S2⟩⟩ := parse_args_ok cv md args {} v h
  simp only [List.map_nil, List.nil_append] at R1 R2 I1 I2 B1 B2 S1 S2
  have len : ∀ {α β γ : Type} (l1 : List α) (l2 : List β) (l : List γ)
      (f : γ → Option α) (g : γ → Option β),
      l1.map some = l.map f → l2.map some = l.map g → l1.length = l2.length := by
    intro α β γ l1 l2 l f g h1 h2
    have e1 := congrArg List.length h1
    have e2 := congrArg List.length h2
    simp only [List.length_map] at e1 e2
    omega
  exact ⟨⟨len _ _ _ _ _ R1 R2, R1, R2⟩, ⟨len _ _ _ _ _ I1 I2, I1, I2⟩,
    ⟨len _ _ _ _ _ B1 B2, B1, B2⟩, ⟨len _ _ _ _ _ S1 S2, S1, S2⟩⟩

/-- C4 at the sample catalogue and the sample argument list. -/
theorem C4_references_pair_with_values_witness :
    sample_values.stringVariables.length = sample_values.stringValues.length ∧
    sample_values.stringVariables.map some =
      (sample_args.filter (has_type sample_description .string)).map
        (arg_reference sample_description) ∧
    sample_values.stringValues.map some =
      (sample_args.filter (has_type sample_description .string)).map
        (fun a => some (arg_value a)) :=
  (C4_references_pair_with_values sample_conversions sample_description sample_args
    sample_values rfl).2.2.2

/-- C5: an argument that names a catalogue variable whose causality is
neither `parameter` nor `input` makes `parse_initial_values` fail, whatever its
value text and the other arguments, so that no values are returned; and when
the arguments before it are accepted, the failure is "Cannot initialise
variable" for the name of that argument. -/
theorem C5_non_settable_rejected {ρ : Type} (cv : Conversions ρ) (md : model_description)
    (args : List Str) (a : Str) (var : variable_description)
    (hmem : a ∈ args) (hvar : arg_variable md a = some var)
    (hc1 : var.causality ≠ .parameter) (hc2 : var.causality ≠ .input) :
    (∃ e, parse_initial_values cv args md = .error e) ∧
    ∀ pre post v, args = pre ++ a :: post → parse_initial_values cv pre md = .ok v →
      parse_initial_values cv args md = .error (.cannot_initialise (arg_name a)) := by
  have hns : ¬ settable var := by
    unfold settable
    tauto
  constructor
  · exact parse_args_fails_of_mem cv (fastVarLookup md) a
      (fun v => ⟨_, parse_arg_not_settable cv md a var hvar hns v⟩) args hmem {}
  · intro pre post v hargs hpre
    unfold parse_initial_values at hpre ⊢
    rw [hargs, parse_args_append, hpre]
    simp only [parse_args, parse_arg_not_settable cv md a var hvar hns v]

/-- C5 at the sample catalogue: the boolean output `z` after a valid argument
and before a malformed one. -/
theorem C5_non_settable_rejected_witness :
    parse_initial_values sample_conversions
        ["x=25".toList, "z=true".toList, "nonsense".toList] sample_description =
      .error (.cannot_initialise (arg_name "z=true".toList)) :=
  (C5_non_settable_rejected sample_conversions sample_description
    ["x=25".toList, "z=true".toList, "nonsense".toList] "z=true".toList
    ⟨"z".toList, 4, .boolean, .output⟩ (by decide) (by decide) (by decide) (by decide)).2
    ["x=25".toList] ["nonsense".toList] { realVariables := [0], realValues := [25] } rfl rfl

/-- C6: for an argument that names a settable boolean variable,
`parse_initial_values` on that argument alone succeeds exactly when the value
text is `true` or is `false`, with the boolean `true` and `false` as the value,
and for any other value text it fails with "Invalid value for variable".  For
an argument that names a settable integer variable, a value text that
`lexical_cast<int>` rejects fails with "Invalid value for variable". -/
theorem C6_boolean_and_integer_conversion {ρ : Type} (cv : Conversions ρ)
    (md : model_description) (a : Str) (var : variable_description)
    (hvar : arg_variable md a = some var)
    (hset : var.causality = .parameter ∨ var.causality = .input) :
    (var.type = .boolean →
      ((∃ v, parse_initial_values cv [a] md = .ok v) ↔
        (arg_value a = "true".toList ∨ arg_value a = "false".toList)) ∧
      (arg_value a = "true".toList → parse_initial_values cv [a] md =
        .ok { booleanVariables := [var.reference], booleanValues := [true] }) ∧
      (arg_value a = "false".toList → parse_initial_values cv [a] md =
        .ok { booleanVariables := [var.reference], booleanValues := [false] }) ∧
      (arg_value a ≠ "true".toList → arg_value a ≠ "false".toList →
        parse_initial_values cv [a] md =
          .error (.invalid_value (arg_name a) (arg_value a)))) ∧
    (var.type = .integer → cv.castInt (arg_value a) = none →
      parse_initial_values cv [a] md = .error (.invalid_value (arg_name a) (arg_value a))) := by
  have hp := parse_arg_settable cv md a var hvar hset {}
  rw [← parse_single] at hp
  constructor
  · intro ht
    have h1 : arg_value a = "true".toList → parse_initial_values cv [a] md =
        .ok { booleanVariables := [var.reference], booleanValues := [true] } := by
      intro hv
      rw [hp]
      simp [push_value, ht, hv]
    have h2 : arg_value a = "false".toList → parse_initial_values cv [a] md =
        .ok { booleanVariables := [var.reference], booleanValues := [false] } := by
      intro hv
      rw [hp]
      simp [push_value, ht, hv]
    have h3 : arg_value a ≠ "true".toList → arg_value a ≠ "false".toList →
        parse_initial_values cv [a] md =
          .error (.invalid_value (arg_name a) (arg_value a)) := by
      intro hv1 hv2
      rw [hp]
      simp only [push_value, ht]
      rw [if_neg hv1, if_neg hv2]
    refine ⟨⟨?_, ?_⟩, h1, h2, h3⟩
    · rintro ⟨v, hv⟩
      by_contra hne
      push_neg at hne
      rw [h3 hne.1 hne.2] at hv
      cases hv
    · rintro (hv | hv)
      · exact ⟨_, h1 hv⟩
      · exact ⟨_, h2 hv⟩
  · intro ht hcast
    rw [hp]
    simp only [push_value, ht, hcast]

/-- C6 at the sample catalogue: `True` for the boolean input `y`. -/
theorem C6_boolean_and_integer_conversion_witness :
    parse_initial_values sample_conversions ["y=True".toList] sample_description =
      .error (.invalid_value (arg_name "y=True".toList) (arg_value "y=True".toList)) :=
  ((C6_boolean_and_integer_conversion sample_conversions sample_description "y=True".toList
    ⟨"y".toList, 1, .boolean, .input⟩ (by decide) (Or.inr rfl)).1 rfl).2.2.2
    (by decide) (by decide)

/-- C7, as stated, fails: the argument `s=a=b` for the string parameter `s` has
two `=` characters and is accepted, with the value `a=b`. -/
theorem C7_two_equals_accepted :
    parse_initial_values sample_conversions ["s=a=b".toList] sample_description =
      .ok { stringVariables := [2], stringValues := ["a=b".toList] } ∧
    "s=a=b".toList.count '=' = 2 := by
  constructor
  · rfl
  · decide

/-- C7, amended: every argument of a list that `parse_initial_values` accepts
contains at least one `=` character. -/
theorem C7_accepted_arguments_have_equals {ρ : Type} (cv : Conversions ρ)
    (md : model_description) (args : List Str) (v : variable_values ρ)
    (h : parse_initial_values cv args md = .ok v) :
    ∀ a ∈ args, 1 ≤ a.count '=' := by
  intro a ha
  have := (parse_args_ok cv md args {} v h).1 a ha
  exact List.count_pos_iff.mpr this

/-- C7, amended, at the sample catalogue and the sample argument list, for
its last argument. -/
theorem C7_accepted_arguments_have_equals_witness : 1 ≤ "s=b c".toList.count '=' :=
  C7_accepted_arguments_have_equals sample_conversions sample_description sample_args
    sample_values rfl "s=b c".toList (by decide)

/-- C8: when the arguments before it are accepted, an argument without `=`
makes `parse_initial_values` fail with "Invalid initial value specification"
for that argument, whatever the catalogue holds and whatever follows; and a
single argument without `=` is rejected so for every catalogue. -/
theorem C8_missing_equals_is_malformed {ρ : Type} (cv : Conversions ρ)
    (md : model_description) (pre post : List Str) (a : Str) (v : variable_values ρ)
    (hpre : parse_initial_values cv pre md = .ok v) (ha : '=' ∉ a) :
    parse_initial_values cv (pre ++ a :: post) md = .error (.invalid_specification a) ∧
    ∀ md2 : model_description,
      parse_initial_values cv [a] md2 = .error (.invalid_specification a) := by
  constructor
  · unfold parse_initial_values at hpre ⊢
    rw [parse_args_append, hpre]
    simp only [parse_args, parse_arg_malformed cv _ a ha v]
  · intro md2
    rw [parse_single, parse_arg_malformed cv _ a ha]

/-- C8 at the sample catalogue: the bare name `y` of a settable variable,
after a valid argument, and alone. -/
theorem C8_missing_equals_is_malformed_witness :
    parse_initial_values sample_conversions (["x=25".toList] ++ "y".toList :: ["s=a".toList])
      sample_description = .error (.invalid_specification "y".toList) ∧
    parse_initial_values sample_conversions ["y".toList] sample_description =
      .error (.invalid_specification "y".toList) :=
  have h := C8_missing_equals_is_malformed sample_conversions sample_description
    ["x=25".toList] ["s=a".toList] "y".toList { realVariables := [0], realValues := [25] }
    rfl (by decide)
  ⟨h.1, h.2 sample_description⟩

/-- C9: for a settable string variable whose name has no `=` and resolves to
it, and for every text, `parse_initial_values` on the argument made of the
name, an `=` and the text succeeds, with that text unchanged as the one string
value, for the reference of the variable. -/
theorem C9_string_value_verbatim {ρ : Type} (cv : Conversions ρ) (md : model_description)
    (var : variable_description) (value : Str)
    (hvar : catalog_variable md var.name = some var) (ht : var.type = .string)
    (hset : var.causality = .parameter ∨ var.causality = .input)
    (hname : '=' ∉ var.name) :
    parse_initial_values cv [var.name ++ '=' :: value] md =
      .ok { stringVariables := [var.reference], stringValues := [value] } := by
  have hv : arg_variable md (var.name ++ '=' :: value) = some var := by
    rw [arg_variable_append md var.name value hname, hvar]
  rw [parse_single, parse_arg_settable cv md _ var hv hset, arg_value_append _ _ hname]
  simp [push_value, ht]

/-- C9 at the sample catalogue: a text with blanks and `=` characters for the
string parameter `s`. -/
theorem C9_string_value_verbatim_witness :
    parse_initial_values sample_conversions ["s".toList ++ '=' :: " a = b= ".toList]
      sample_description = .ok { stringVariables := [2], stringValues := [" a = b= ".toList] } :=
  C9_string_value_verbatim sample_conversions sample_description
    ⟨"s".toList, 2, .string, .parameter⟩ " a = b= ".toList rfl rfl (Or.inl rfl) (by decide)

/-- C10: when the step size is positive and `parse_initial_values` fails on the
initial values given, the run ends with that error, having made the model
lookup and no other call: the simulator is not instantiated, set up, given
values, started, stepped or read, its state is untouched, and the output file
is not opened. -/
theorem C10_parse_failure_aborts_before_start {σ ρ : Type} (env : collaborators σ ρ)
    (args : run_options) (sim : σ) (l : List Str) (e : parse_error)
    (hs : 0 < args.stepSize) (hiv : args.initial_value = some l)
    (hfail : parse_initial_values env.conversions l env.description = .error e) :
    (run env args sim).result = .error (.initial_values e) ∧
    (run env args sim).state.log = [.lookup_model args.uri_or_path] ∧
    (run env args sim).state.sim = sim ∧
    (run env args sim).state.output = none := by
  unfold run
  rw [dif_neg (not_le.mpr hs)]
  simp [hiv, hfail, Except.map]

/-- C10 at the sample run with `y=notabool` after a valid value for `x`. -/
theorem C10_parse_failure_aborts_before_start_witness :
    (run sample_env sample_options_notabool ()).result =
      .error (.initial_values (.invalid_value "y".toList "notabool".toList)) ∧
    (run sample_env sample_options_notabool ()).state.log =
      [.lookup_model sample_options_notabool.uri_or_path] ∧
    (run sample_env sample_options_notabool ()).state.sim = () ∧
    (run sample_env sample_options_notabool ()).state.output = none :=
  C10_parse_failure_aborts_before_start sample_env sample_options_notabool ()
    ["x=25".toList, "y=notabool".toList] _ (by decide) rfl rfl

/-! ## The trace of a run, whatever the collaborators do -/

/-- The three ways in which a recording ends: the read throws, the write
throws, or one row is appended. -/
theorem update_cases {σ ρ : Type} (env : collaborators σ ρ) (w : csv_output_writer) (t : Int)
    (st : run_state σ ρ) :
    (∃ err, (err = .read_failure ∨ err = .output_failure) ∧
      csv_output_writer.update env w t st =
        ({ sim := st.sim,
           log := st.log ++ [.get_variables w.realVariables_ w.integerVariables_
             w.booleanVariables_ w.stringVariables_],
           output := st.output }, .error err)) ∨
    (∃ line, csv_output_writer.update env w t st =
      ({ sim := st.sim,
         log := st.log ++ [.get_variables w.realVariables_ w.integerVariables_
           w.booleanVariables_ w.stringVariables_, .write_row t line],
         output := some (st.output.getD [] ++ line) }, .ok ())) := by
  unfold csv_output_writer.update
  cases hg : env.simulator.get_variables st.sim w.realVariables_ w.integerVariables_
      w.booleanVariables_ w.stringVariables_ with
  | none =>
    left
    exact ⟨.read_failure, Or.inl rfl, by simp [hg]⟩
  | some values =>
    by_cases hw : env.write_ok (st.output.getD []) (row_line env.rendering t values) = true
    · right
      exact ⟨row_line env.rendering t values, by simp [hg, hw]⟩
    · left
      exact ⟨.output_failure, Or.inr rfl, by simp [hg, hw]⟩

/-- The trace of the stepping loop from time `t`, whatever the simulator and the
file system do.  The events `mid` of the iterations that went through hold
rows at strictly increasing times, each at most one step after the one before
and none after the end time, and one `do_step` call of the full step size at
the time before each row.  With `last` the time of the last of these rows (`t`
when there is none), the loop either returns with `last` at the end time or
beyond, or makes a `do_step` call at `last` that fails, ends the simulation
and raises the error for `last`, or makes that call and fails in the
recording after it. -/
theorem step_loop_trace {σ ρ : Type} (env : collaborators σ ρ) (e s : Int) (hs : 0 < s)
    (w : csv_output_writer) :
    ∀ (n : Nat) (t : Int) (st : run_state σ ρ), (e - t).toNat ≤ n →
      ∃ (mid : List (event ρ)) (st' : run_state σ ρ),
        List.Chain (fun a b => a < b ∧ b - a ≤ s) t (recorded_times mid) ∧
        (∀ x ∈ recorded_times mid, x ≤ e) ∧
        do_step_calls mid = ((t :: recorded_times mid).dropLast).map (fun x => (x, s)) ∧
        (∀ ev ∈ mid, ev ≠ .end_simulation ∧ ev ≠ .start_simulation) ∧
        ((step_loop env e s hs w t st = (st', .ok ()) ∧ st'.log = st.log ++ mid ∧
            e ≤ (recorded_times mid).getLastD t) ∨
          (step_loop env e s hs w t st =
              (st', .error (.step_failed ((recorded_times mid).getLastD t))) ∧
            st'.log = st.log ++ mid ++
              [.do_step ((recorded_times mid).getLastD t) s, .end_simulation] ∧
            (recorded_times mid).getLastD t < e ∧
            ∃ z, (env.simulator.do_step z ((recorded_times mid).getLastD t) s).1 ≠
              .complete) ∨
          (∃ err, (err = .read_failure ∨ err = .output_failure) ∧
            step_loop env e s hs w t st = (st', .error err) ∧
            st'.log = st.log ++ mid ++
              [.do_step ((recorded_times mid).getLastD t) s,
               .get_variables w.realVariables_ w.integerVariables_
                 w.booleanVariables_ w.stringVariables_] ∧
            (recorded_times mid).getLastD t < e)) := by
  intro n
  induction n with
  | zero =>
    intro t st hn
    have hte : ¬ t < e := by omega
    refine ⟨[], st, ?_, ?_, ?_, ?_, Or.inl ⟨?_, ?_, ?_⟩⟩
    · simp [recorded_times]
    · simp [recorded_times]
    · simp [recorded_times, do_step_calls]
    · simp
    · rw [step_loop, dif_neg hte]
    · simp
    · simp only [recorded_times, List.filterMap_nil, List.getLastD_nil]
      omega
  | succ n ih =>
    intro t st hn
    by_cases hte : t < e
    · have hdt : 0 < min (e - t) s := lt_min (by omega) hs
      have hdt2 : min (e - t) s ≤ s := min_le_right _ _
      have hdt3 : t + min (e - t) s ≤ e := by
        have := min_le_left (e - t) s
        omega
      by_cases hc : (env.simulator.do_step st.sim t s).1 = .complete
      · rcases update_cases env w (t + min (e - t) s)
          { sim := (env.simulator.do_step st.sim t s).2, log := st.log ++ [.do_step t s],
            output := st.output } with ⟨err, herr, hu⟩ | ⟨line, hu⟩
        · have hl : step_loop env e s hs w t st =
              ({ sim := (env.simulator.do_step st.sim t s).2,
                 log := st.log ++ [.do_step t s] ++ [.get_variables w.realVariables_
                   w.integerVariables_ w.booleanVariables_ w.stringVariables_],
                 output := st.output }, .error err) := by
            rw [step_loop, dif_pos hte]
            simp only [hc, ne_eq, not_true_eq_false, if_false]
            rw [hu]
          refine ⟨[],
            { sim := (env.simulator.do_step st.sim t s).2,
              log := st.log ++ [.do_step t s] ++ [.get_variables w.realVariables_
                w.integerVariables_ w.booleanVariables_ w.stringVariables_],
              output := st.output }, ?_, ?_, ?_, ?_, Or.inr (Or.inr ⟨err, herr, ?_, ?_, ?_⟩)⟩
          · simp [recorded_times]
          · simp [recorded_times]
          · simp [recorded_times, do_step_calls]
          · simp
          · simpa [recorded_times] using hl
          · simp [recorded_times]
          · simpa [recorded_times] using hte
        · obtain ⟨mid, st', c1, c2, c3, c4, c5⟩ := ih (t + min (e - t) s)
            { sim := (env.simulator.do_step st.sim t s).2,
              log := st.log ++ [.do_step t s] ++ [.get_variables w.realVariables_
                w.integerVariables_ w.booleanVariables_ w.stringVariables_,
                .write_row (t + min (e - t) s) line] ++
                [.sleep (t + min (e - t) s), .progress (t + min (e - t) s)],
              output := some (st.output.getD [] ++ line) } (by omega)
          have hloop : step_loop env e s hs w t st =
              step_loop env e s hs w (t + min (e - t) s)
                { sim := (env.simulator.do_step st.sim t s).2,
                  log := st.log ++ [.do_step t s] ++ [.get_variables w.realVariables_
                    w.integerVariables_ w.booleanVariables_ w.stringVariables_,
                    .write_row (t + min (e - t) s) line] ++
                    [.sleep (t + min (e - t) s), .progress (t + min (e - t) s)],
                  output := some (st.output.getD [] ++ line) } := by
            rw [step_loop, dif_pos hte]
            simp only [hc, ne_eq, not_true_eq_false, if_false]
            rw [hu]
          have hrec : recorded_times ([.do_step t s, .get_variables w.realVariables_
              w.integerVariables_ w.booleanVariables_ w.stringVariables_,
              .write_row (t + min (e - t) s) line, .sleep (t + min (e - t) s),
              .progress (t + min (e - t) s)] ++ mid) =
              (t + min (e - t) s) :: recorded_times mid := by
            rw [recorded_times_append]
            simp [recorded_times]
          have hdo : do_step_calls ([.do_step t s, .get_variables w.realVariables_
              w.integerVariables_ w.booleanVariables_ w.stringVariables_,
              .write_row (t + min (e - t) s) line, .sleep (t + min (e - t) s),
              .progress (t + min (e - t) s)] ++ mid) = (t, s) :: do_step_calls mid := by
            rw [do_step_calls_append]
            simp [do_step_calls]
          refine ⟨[.do_step t s, .get_variables w.realVariables_ w.integerVariables_
            w.booleanVariables_ w.stringVariables_, .write_row (t + min (e - t) s) line,
            .sleep (t + min (e - t) s), .progress (t + min (e - t) s)] ++ mid, st',
            ?_, ?_, ?_, ?_, ?_⟩
          · rw [hrec]
            exact List.Chain.cons ⟨by omega, by omega⟩ c1
          · rw [hrec]
            intro x hx
            rcases List.mem_cons.mp hx with rfl | hx
            · exact hdt3
            · exact c2 x hx
          · rw [hrec, hdo, c3]
            simp
          · intro ev hev
            rcases List.mem_append.mp hev with h | h
            · simp only [List.mem_cons, List.mem_singleton, List.not_mem_nil, or_false] at h
              rcases h with rfl | rfl | rfl | rfl | rfl <;> simp
            · exact c4 ev h
          · rw [hrec, List.getLastD_cons, hloop]
            rcases c5 with ⟨h1, h2, h3⟩ | ⟨h1, h2, h3, h4⟩ | ⟨err, herr, h1, h2, h3⟩
            · exact Or.inl ⟨h1, by simp [h2], h3⟩
            · exact Or.inr (Or.inl ⟨h1, by simp [h2], h3, h4⟩)
            · exact Or.inr (Or.inr ⟨err, herr, h1, by simp [h2], h3⟩)
      · have hl : step_loop env e s hs w t st =
            (end_simulation env
              { sim := (env.simulator.do_step st.sim t s).2,
                log := st.log ++ [.do_step t s], output := st.output },
             .error (.step_failed t)) := by
          rw [step_loop, dif_pos hte]
          simp only [ne_eq, hc, not_false_eq_true, if_true]
        refine ⟨[],
          end_simulation env
            { sim := (env.simulator.do_step st.sim t s).2,
              log := st.log ++ [.do_step t s], output := st.output },
          ?_, ?_, ?_, ?_, Or.inr (Or.inl ⟨?_, ?_, ?_, ?_⟩)⟩
        · simp [recorded_times]
        · simp [recorded_times]
        · simp [recorded_times, do_step_calls]
        · simp
        · simpa [recorded_times] using hl
        · simp [recorded_times, end_simulation]
        · simpa [recorded_times] using hte
        · exact ⟨st.sim, by simpa [recorded_times] using hc⟩
    · refine ⟨[], st, ?_, ?_, ?_, ?_, Or.inl ⟨?_, ?_, ?_⟩⟩
      · simp [recorded_times]
      · simp [recorded_times]
      · simp [recorded_times, do_step_calls]
      · simp
      · rw [step_loop, dif_neg hte]
      · simp
      · simp only [recorded_times, List.filterMap_nil, List.getLastD_nil]
        omega

/-- The two ways in which the constructor of the writer ends: an error after
the attempt to open the file, or the file open with the header line in it. -/
theorem create_cases {σ ρ : Type} (env : collaborators σ ρ) (f : Str) (st : run_state σ ρ) :
    (∃ err out, (err = .output_failure ∨ err = .assertion_failed) ∧
      csv_output_writer.create env f st =
        ({ sim := st.sim, log := st.log ++ [.open_output f], output := out }, .error err)) ∨
    (∃ h w, collect_headers env.rendering env.conversions.ndebug ({}, {})
        env.description.variables_ = some (h, w) ∧
      csv_output_writer.create env f st =
        ({ sim := st.sim, log := st.log ++ [.open_output f, .write_header (header_line h)],
           output := some (header_line h) }, .ok w)) := by
  unfold csv_output_writer.create
  by_cases ho : env.open_ok = true
  · cases hch : collect_headers env.rendering env.conversions.ndebug ({}, {})
        env.description.variables_ with
    | none =>
      left
      exact ⟨.assertion_failed, some [], Or.inr rfl, by simp [ho, hch]⟩
    | some r =>
      obtain ⟨h, w⟩ := r
      by_cases hw : env.write_ok [] (header_line h) = true
      · right
        exact ⟨h, w, rfl, by simp [ho, hch, hw]⟩
      · left
        exact ⟨.output_failure, some [], Or.inl rfl, by simp [ho, hch, hw]⟩
  · left
    exact ⟨.output_failure, st.output, Or.inl rfl, by simp [ho]⟩

/-- The run with a positive step size: either the initial values do not parse
and the run ends after the model lookup, or the writer is constructed in the
prepared state and, if that succeeds, the simulation part runs. -/
theorem run_unfold {σ ρ : Type} (env : collaborators σ ρ) (args : run_options) (sim : σ)
    (hs : 0 < args.stepSize) :
    (∃ l e, args.initial_value = some l ∧
      parse_initial_values env.conversions l env.description = .error e ∧
      run env args sim =
        ⟨{ sim := sim, log := [.lookup_model args.uri_or_path], output := none },
          .error (.initial_values e)⟩) ∨
    ((∀ l, args.initial_value = some l →
        ∃ v, parse_initial_values env.conversions l env.description = .ok v) ∧
      run env args sim =
        match csv_output_writer.create env args.output_file
            (prepared_state env args (parsed_initial_values env args) sim) with
        | (st, .error e) => ⟨st, .error e⟩
        | (st, .ok w) => simulate env args hs w st) := by
  unfold run
  rw [dif_neg (not_le.mpr hs)]
  cases hiv : args.initial_value with
  | none =>
    right
    refine ⟨fun l hl => (by cases hl), ?_⟩
    simp only [parsed_initial_values, hiv, prepared_state, simulate, List.nil_append,
      List.cons_append]
  | some l =>
    cases hp : parse_initial_values env.conversions l env.description with
    | error e =>
      left
      exact ⟨l, e, rfl, hp, by simp [hp, Except.map]⟩
    | ok v =>
      right
      refine ⟨fun l2 hl => (by cases hl; exact ⟨v, hp⟩), ?_⟩
      simp only [parsed_initial_values, hiv, hp, Except.map, prepared_state, simulate,
        List.nil_append, List.cons_append]

/-- The trace of the simulation part from the state `st`, whatever the
collaborators do: the first recording fails after `start_simulation`, or the
row for `begin_time` is followed by the iterations `mid` that went through and
then by the end of the simulation, by a failed step and the end of the
simulation, or by a step and a failed recording. -/
theorem simulate_trace {σ ρ : Type} (env : collaborators σ ρ) (args : run_options)
    (hs : 0 < args.stepSize) (w : csv_output_writer) (st : run_state σ ρ) :
    (∃ err, (err = .read_failure ∨ err = .output_failure) ∧
      (simulate env args hs w st).result = .error err ∧
      (simulate env args hs w st).state.log = st.log ++
        [.start_simulation, .get_variables w.realVariables_ w.integerVariables_
          w.booleanVariables_ w.stringVariables_]) ∨
    (∃ line mid, iteration_events args.end_time args.stepSize args.begin_time mid ∧
      (((simulate env args hs w st).result = .ok 0 ∧
          (simulate env args hs w st).state.log = st.log ++
            [.start_simulation, .get_variables w.realVariables_ w.integerVariables_
              w.booleanVariables_ w.stringVariables_, .write_row args.begin_time line] ++
            mid ++ [.end_simulation] ∧
          args.end_time ≤ (recorded_times mid).getLastD args.begin_time) ∨
        ((simulate env args hs w st).result =
            .error (.step_failed ((recorded_times mid).getLastD args.begin_time)) ∧
          (simulate env args hs w st).state.log = st.log ++
            [.start_simulation, .get_variables w.realVariables_ w.integerVariables_
              w.booleanVariables_ w.stringVariables_, .write_row args.begin_time line] ++
            mid ++ [.do_step ((recorded_times mid).getLastD args.begin_time) args.stepSize,
              .end_simulation] ∧
          (recorded_times mid).getLastD args.begin_time < args.end_time ∧
          ∃ z, (env.simulator.do_step z ((recorded_times mid).getLastD args.begin_time)
            args.stepSize).1 ≠ .complete) ∨
        (∃ err, (err = .read_failure ∨ err = .output_failure) ∧
          (simulate env args hs w st).result = .error err ∧
          (simulate env args hs w st).state.log = st.log ++
            [.start_simulation, .get_variables w.realVariables_ w.integerVariables_
              w.booleanVariables_ w.stringVariables_, .write_row args.begin_time line] ++
            mid ++ [.do_step ((recorded_times mid).getLastD args.begin_time) args.stepSize,
              .get_variables w.realVariables_ w.integerVariables_
                w.booleanVariables_ w.stringVariables_] ∧
          (recorded_times mid).getLastD args.begin_time < args.end_time))) := by
  unfold simulate
  rcases update_cases env w args.begin_time
      { st with log := st.log ++ [.start_simulation],
                sim := env.simulator.start_simulation st.sim } with ⟨err, herr, hu⟩ | ⟨line, hu⟩
  · left
    rw [hu]
    exact ⟨err, herr, rfl, by simp⟩
  · right
    rw [hu]
    simp only
    obtain ⟨mid, st', c1, c2, c3, c4, c5⟩ := step_loop_trace env args.end_time args.stepSize hs w
      _ args.begin_time
      { sim := env.simulator.start_simulation st.sim,
        log := st.log ++ [.start_simulation] ++ [.get_variables w.realVariables_
          w.integerVariables_ w.booleanVariables_ w.stringVariables_,
          .write_row args.begin_time line],
        output := some (st.output.getD [] ++ line) } (le_refl _)
    refine ⟨line, mid, ⟨c1, c2, c3, c4⟩, ?_⟩
    rcases c5 with ⟨h1, h2, h3⟩ | ⟨h1, h2, h3, h4⟩ | ⟨err, herr, h1, h2, h3⟩
    · left
      rw [h1]
      exact ⟨rfl, by simp [end_simulation, h2], h3⟩
    · right; left
      rw [h1]
      exact ⟨rfl, by simp [h2], h3, h4⟩
    · right; right
      rw [h1]
      exact ⟨err, herr, rfl, by simp [h2], h3⟩

/-- The trace of a run with a positive step size, whatever the collaborators
do.  After the events `pre` of the set-up, in which the simulation is not
started, nothing is recorded and no step is made, the run either ends with an
error of the set-up, or goes on as the simulation part does. -/
theorem run_trace {σ ρ : Type} (env : collaborators σ ρ) (args : run_options) (sim : σ)
    (hs : 0 < args.stepSize) :
    ∃ pre : List (event ρ),
      (∀ ev ∈ pre, ev ≠ .start_simulation ∧ ev ≠ .end_simulation) ∧
      recorded_times pre = [] ∧ do_step_calls pre = [] ∧
      ((∃ err, (run env args sim).result = .error err ∧ err ≠ .invalid_step_size ∧
          (∀ t, err ≠ .step_failed t) ∧ (run env args sim).state.log = pre) ∨
        (∃ (err : run_error) (w : csv_output_writer), (err = .read_failure ∨ err = .output_failure) ∧
          (run env args sim).result = .error err ∧
          (run env args sim).state.log = pre ++
            [.start_simulation, .get_variables w.realVariables_ w.integerVariables_
              w.booleanVariables_ w.stringVariables_]) ∨
        (∃ (w : csv_output_writer) (line : Str) (mid : List (event ρ)), iteration_events args.end_time args.stepSize args.begin_time mid ∧
          (((run env args sim).result = .ok 0 ∧
              (run env args sim).state.log = pre ++
                [.start_simulation, .get_variables w.realVariables_ w.integerVariables_
                  w.booleanVariables_ w.stringVariables_,
                  .write_row args.begin_time line] ++
                mid ++ [.end_simulation] ∧
              args.end_time ≤ (recorded_times mid).getLastD args.begin_time) ∨
            ((run env args sim).result =
                .error (.step_failed ((recorded_times mid).getLastD args.begin_time)) ∧
              (run env args sim).state.log = pre ++
                [.start_simulation, .get_variables w.realVariables_ w.integerVariables_
                  w.booleanVariables_ w.stringVariables_,
                  .write_row args.begin_time line] ++
                mid ++ [.do_step ((recorded_times mid).getLastD args.begin_time)
                  args.stepSize, .end_simulation] ∧
              (recorded_times mid).getLastD args.begin_time < args.end_time ∧
              ∃ z, (env.simulator.do_step z
                ((recorded_times mid).getLastD args.begin_time) args.stepSize).1 ≠
                  .complete) ∨
            (∃ err, (err = .read_failure ∨ err = .output_failure) ∧
              (run env args sim).result = .error err ∧
              (run env args sim).state.log = pre ++
                [.start_simulation, .get_variables w.realVariables_ w.integerVariables_
                  w.booleanVariables_ w.stringVariables_,
                  .write_row args.begin_time line] ++
                mid ++ [.do_step ((recorded_times mid).getLastD args.begin_time)
                  args.stepSize, .get_variables w.realVariables_ w.integerVariables_
                  w.booleanVariables_ w.stringVariables_] ∧
              (recorded_times mid).getLastD args.begin_time < args.end_time)))) := by
  rcases run_unfold env args sim hs with ⟨l, e, _, _, hr⟩ | ⟨_, hr⟩
  · refine ⟨[.lookup_model args.uri_or_path], by simp, by simp [recorded_times],
      by simp [do_step_calls], Or.inl ⟨.initial_values e, ?_, by simp, by simp, ?_⟩⟩
    · rw [hr]
    · rw [hr]
  · have hprep : ∀ ev ∈ (prepared_state env args (parsed_initial_values env args) sim).log,
        (ev ≠ (.start_simulation : event ρ) ∧ ev ≠ .end_simulation) ∧
        recorded_times [ev] = [] ∧ do_step_calls [ev] = [] := by
      intro ev hev
      cases hp : parsed_initial_values env args with
      | none =>
        rw [hp] at hev
        simp only [prepared_state, List.mem_cons, List.mem_singleton, List.not_mem_nil,
          or_false] at hev
        rcases hev with rfl | rfl | rfl <;> simp [recorded_times, do_step_calls]
      | some v =>
        rw [hp] at hev
        simp only [prepared_state, List.mem_cons, List.mem_singleton, List.not_mem_nil,
          or_false] at hev
        rcases hev with rfl | rfl | rfl | rfl <;> simp [recorded_times, do_step_calls]
    have hprep_rec : recorded_times
        (prepared_state env args (parsed_initial_values env args) sim).log = [] := by
      unfold prepared_state
      cases parsed_initial_values env args <;> simp [recorded_times]
    have hprep_do : do_step_calls
        (prepared_state env args (parsed_initial_values env args) sim).log = [] := by
      unfold prepared_state
      cases parsed_initial_values env args <;> simp [do_step_calls]
    rcases create_cases env args.output_file
        (prepared_state env args (parsed_initial_values env args) sim) with
      ⟨err, out, herr, hc⟩ | ⟨h, w, _, hc⟩
    · rw [hc] at hr
      refine ⟨(prepared_state env args (parsed_initial_values env args) sim).log ++
        [.open_output args.output_file], ?_, ?_, ?_, Or.inl ⟨err, ?_, ?_, ?_, ?_⟩⟩
      · intro ev hev
        rcases List.mem_append.mp hev with h | h
        · exact (hprep ev h).1
        · simp only [List.mem_singleton] at h
          subst h
          simp
      · rw [recorded_times_append, hprep_rec]
        simp [recorded_times]
      · rw [do_step_calls_append, hprep_do]
        simp [do_step_calls]
      · rw [hr]
      · rcases herr with rfl | rfl <;> simp
      · rcases herr with rfl | rfl <;> simp
      · rw [hr]
    · rw [hc] at hr
      refine ⟨(prepared_state env args (parsed_initial_values env args) sim).log ++
        [.open_output args.output_file, .write_header (header_line h)], ?_, ?_, ?_, ?_⟩
      · intro ev hev
        rcases List.mem_append.mp hev with h | h
        · exact (hprep ev h).1
        · simp only [List.mem_cons, List.mem_singleton, List.not_mem_nil, or_false] at h
          rcases h with rfl | rfl <;> simp
      · rw [recorded_times_append, hprep_rec]
        simp [recorded_times]
      · rw [do_step_calls_append, hprep_do]
        simp [do_step_calls]
      · rw [hr]
        rcases simulate_trace env args hs w
            { sim := (prepared_state env args (parsed_initial_values env args) sim).sim,
              log := (prepared_state env args (parsed_initial_values env args) sim).log ++
                [.open_output args.output_file, .write_header (header_line h)],
              output := some (header_line h) } with
          ⟨err, herr, h1, h2⟩ | ⟨line, mid, hm, h1⟩
        · exact Or.inr (Or.inl ⟨err, w, herr, h1, h2⟩)
        · exact Or.inr (Or.inr ⟨w, line, mid, hm, h1⟩)

/-! ## The claims, continued -/

/-- C11: the run ends with "Invalid step size" exactly when the step size is
not positive; it then has made no call at all (no model lookup, nothing on the
simulator, no file opened or written) and has left the simulator state as it
was.  A positive step size never gives this error. -/
theorem C11_invalid_step_size {σ ρ : Type} (env : collaborators σ ρ) (args : run_options)
    (sim : σ) :
    ((run env args sim).result = .error .invalid_step_size ↔ args.stepSize ≤ 0) ∧
    (args.stepSize ≤ 0 →
      (run env args sim).state.log = [] ∧ (run env args sim).state.sim = sim ∧
      (run env args sim).state.output = none) := by
  by_cases hs : args.stepSize ≤ 0
  · have hr : run env args sim = ⟨{ sim := sim }, .error .invalid_step_size⟩ := by
      unfold run
      rw [dif_pos hs]
    rw [hr]
    exact ⟨⟨fun _ => hs, fun _ => rfl⟩, fun _ => ⟨rfl, rfl, rfl⟩⟩
  · refine ⟨⟨fun h => ?_, fun h => absurd h hs⟩, fun h => absurd h hs⟩
    exfalso
    obtain ⟨pre, _, _, _, hcases⟩ := run_trace env args sim (not_le.mp hs)
    rcases hcases with ⟨err, h1, h2, _⟩ | ⟨err, g, herr, h1, _⟩ |
      ⟨g, line, mid, _, ⟨h1, _⟩ | ⟨h1, _⟩ | ⟨err, herr, h1, _⟩⟩
    · rw [h] at h1
      cases h1
      exact h2 rfl
    · rw [h] at h1
      cases h1
      rcases herr with h3 | h3 <;> cases h3
    · rw [h] at h1
      cases h1
    · rw [h] at h1
      cases h1
    · rw [h] at h1
      cases h1
      rcases herr with h3 | h3 <;> cases h3

/-- C11 at the sample run with the step size 0. -/
theorem C11_invalid_step_size_witness :
    (run sample_env sample_options_zero_step ()).result = .error .invalid_step_size ∧
    (run sample_env sample_options_zero_step ()).state.log = [] ∧
    (run sample_env sample_options_zero_step ()).state.sim = () ∧
    (run sample_env sample_options_zero_step ()).state.output = none :=
  have h := C11_invalid_step_size sample_env sample_options_zero_step ()
  ⟨h.1.mpr (by decide), h.2 (by decide)⟩

/-- In the events of a set-up that went through, the simulation is neither
started nor ended, nothing is recorded and no step is made. -/
theorem setup_events_facts {σ ρ : Type} (env : collaborators σ ρ) (args : run_options)
    (iv : Option (variable_values ρ)) (sim : σ) (f line : Str) :
    (∀ ev ∈ (prepared_state env args iv sim).log ++ [.open_output f, .write_header line],
      ev ≠ .start_simulation ∧ ev ≠ .end_simulation) ∧
    recorded_times
      ((prepared_state env args iv sim).log ++ [.open_output f, .write_header line]) = [] ∧
    do_step_calls
      ((prepared_state env args iv sim).log ++ [.open_output f, .write_header line]) = [] := by
  cases iv <;> simp [prepared_state, recorded_times, do_step_calls]

/-- The run up to the loop, when the set-up and the first recording meet no
failure: the loop starts at `begin_time` in the started simulator state, after
the events of the set-up, `start_simulation`, a read and the row for
`begin_time`. -/
theorem run_started {σ ρ : Type} (env : collaborators σ ρ) (args : run_options) (sim : σ)
    (hs : 0 < args.stepSize)
    (hread : ∀ z r i b x, (env.simulator.get_variables z r i b x).isSome)
    (hopen : env.open_ok = true) (hwrite : ∀ c l, env.write_ok c l = true)
    (hinit : ∀ l, args.initial_value = some l →
      ∃ v, parse_initial_values env.conversions l env.description = .ok v)
    (hcat : env.conversions.ndebug = true ∨
      ∀ var ∈ env.description.variables_, var.type ≠ .other) :
    ∃ (w : csv_output_writer) (pre : List (event ρ)) (line : Str) (out : Option Str),
      (∀ ev ∈ pre, ev ≠ .start_simulation ∧ ev ≠ .end_simulation) ∧
      recorded_times pre = [] ∧ do_step_calls pre = [] ∧
      run env args sim =
        (match step_loop env args.end_time args.stepSize hs w args.begin_time
            { sim := started_sim env args sim,
              log := pre ++ [.start_simulation, .get_variables w.realVariables_
                w.integerVariables_ w.booleanVariables_ w.stringVariables_,
                .write_row args.begin_time line],
              output := out } with
          | (st, .error e) => ⟨st, .error e⟩
          | (st, .ok _) => ⟨end_simulation env st, .ok 0⟩) ∧
      out = some (written_text (pre ++ [.start_simulation, .get_variables w.realVariables_
        w.integerVariables_ w.booleanVariables_ w.stringVariables_,
        .write_row args.begin_time line])) := by
  rcases run_unfold env args sim hs with ⟨l, e, hl, he, _⟩ | ⟨_, hr⟩
  · obtain ⟨v, hv⟩ := hinit l hl
    rw [hv] at he
    cases he
  · obtain ⟨w, hline, hc⟩ := create_ok env args.output_file
      (prepared_state env args (parsed_initial_values env args) sim) hopen hwrite hcat
    rw [hc] at hr
    obtain ⟨line, hu⟩ := update_ok env w args.begin_time
      { sim := env.simulator.start_simulation
          (prepared_state env args (parsed_initial_values env args) sim).sim,
        log := (prepared_state env args (parsed_initial_values env args) sim).log ++
          [.open_output args.output_file, .write_header hline] ++ [.start_simulation],
        output := some hline } hread hwrite
    obtain ⟨f1, f2, f3⟩ := setup_events_facts env args (parsed_initial_values env args) sim
      args.output_file hline
    refine ⟨w, (prepared_state env args (parsed_initial_values env args) sim).log ++
        [.open_output args.output_file, .write_header hline],
      line, some (hline ++ line), f1, f2, f3, ?_, ?_⟩
    · rw [hr]
      simp only [simulate]
      rw [hu]
      simp [started_sim]
    · cases parsed_initial_values env args <;> simp [written_text, prepared_state]

/-- In a chain of increasing times from `t`, no time is after the last. -/
theorem chain_le_last (s : Int) (rows : List Int) :
    ∀ t, List.Chain (fun a b => a < b ∧ b - a ≤ s) t rows →
      ∀ x ∈ t :: rows, x ≤ rows.getLastD t := by
  induction rows with
  | nil =>
    intro t _ x hx
    simp only [List.mem_singleton] at hx
    simp [hx]
  | cons r rows ih =>
    intro t hc x hx
    rw [List.getLastD_cons]
    rw [List.chain_cons] at hc
    have h1 := ih r hc.2
    rcases List.mem_cons.mp hx with rfl | hx
    · have := h1 r (List.mem_cons_self _ _)
      omega
    · exact h1 x hx

/-- The stepping loop when the first `k` steps complete, the next one fails and
no recording fails: it raises the error for the time of that step. -/
theorem step_loop_fails_at {σ ρ : Type} (env : collaborators σ ρ) (e s : Int) (hs : 0 < s)
    (w : csv_output_writer)
    (hread : ∀ z r i b x, (env.simulator.get_variables z r i b x).isSome)
    (hwrite : ∀ c l, env.write_ok c l = true) :
    ∀ (k : Nat) (t : Int) (st : run_state σ ρ), t + (k : Int) * s < e →
      (∀ j : Nat, j < k →
        (env.simulator.do_step (sim_before_step env s j t st.sim) (t + (j : Int) * s) s).1 =
          .complete) →
      (env.simulator.do_step (sim_before_step env s k t st.sim) (t + (k : Int) * s) s).1 ≠
        .complete →
      (step_loop env e s hs w t st).2 = .error (.step_failed (t + (k : Int) * s)) := by
  intro k
  induction k with
  | zero =>
    intro t st hk _ hfail
    simp only [Nat.cast_zero, zero_mul, add_zero, sim_before_step] at hk hfail ⊢
    rw [step_loop, dif_pos hk]
    simp only [ne_eq, hfail, not_false_eq_true, if_true]
  | succ k ih =>
    intro t st hk hbefore hfail
    have hks : 0 ≤ (k : Int) * s := mul_nonneg (Int.ofNat_nonneg k) hs.le
    have hk2 : t + s + (k : Int) * s < e := by
      have : ((k + 1 : Nat) : Int) * s = s + (k : Int) * s := by push_cast; ring
      rw [this] at hk
      omega
    have hte : t < e := by omega
    have h0 := hbefore 0 (Nat.succ_pos k)
    simp only [Nat.cast_zero, zero_mul, add_zero, sim_before_step] at h0
    have hmin : min (e - t) s = s := min_eq_right (by omega)
    obtain ⟨line, hu⟩ := update_ok env w (t + s)
      { sim := (env.simulator.do_step st.sim t s).2, log := st.log ++ [.do_step t s],
        output := st.output } hread hwrite
    rw [step_loop, dif_pos hte]
    simp only [h0, ne_eq, not_true_eq_false, if_false, hmin]
    rw [hu]
    simp only
    have hres := ih (t + s)
      { sim := (env.simulator.do_step st.sim t s).2,
        log := st.log ++ [.do_step t s] ++ [.get_variables w.realVariables_
          w.integerVariables_ w.booleanVariables_ w.stringVariables_,
          .write_row (t + s) line] ++ [.sleep (t + s), .progress (t + s)],
        output := some (st.output.getD [] ++ line) } hk2
      (by
        intro j hj
        have := hbefore (j + 1) (Nat.succ_lt_succ hj)
        simp only [sim_before_step] at this
        have ht : t + ((j + 1 : Nat) : Int) * s = t + s + (j : Int) * s := by push_cast; ring
        rw [ht] at this
        exact this)
      (by
        simp only [sim_before_step] at hfail
        have ht : t + ((k + 1 : Nat) : Int) * s = t + s + (k : Int) * s := by push_cast; ring
        rw [ht] at hfail
        exact hfail)
    have ht : t + ((k + 1 : Nat) : Int) * s = t + s + (k : Int) * s := by push_cast; ring
    rw [ht, ← hres]

/-- The shape of a run that ends with the error of a failed step for `tf`: the
last two events are the `do_step` call at `tf` and `end_simulation`, which
occurs nowhere before; some simulator state makes the step at `tf` fail; and
no row is for a time after `tf`. -/
theorem run_step_failed_shape {σ ρ : Type} (env : collaborators σ ρ) (args : run_options)
    (sim : σ) (tf : Int) (h : (run env args sim).result = .error (.step_failed tf)) :
    ∃ pre, (run env args sim).state.log =
        pre ++ [.do_step tf args.stepSize, .end_simulation] ∧
      (∀ ev ∈ pre, ev ≠ .end_simulation) ∧
      (∀ x ∈ recorded_times (run env args sim).state.log, x ≤ tf) ∧
      ∃ z, (env.simulator.do_step z tf args.stepSize).1 ≠ .complete := by
  by_cases hs : args.stepSize ≤ 0
  · have hr : (run env args sim).result = .error .invalid_step_size := by
      unfold run
      rw [dif_pos hs]
    rw [hr] at h
    cases h
  · obtain ⟨pre, p1, p2, _, hcases⟩ := run_trace env args sim (not_le.mp hs)
    rcases hcases with ⟨err, h1, _, h2, _⟩ | ⟨err, g, herr, h1, _⟩ |
      ⟨w, line, mid, hm, ⟨h1, _⟩ | ⟨h1, h2, h3, h4⟩ | ⟨err, herr, h1, _⟩⟩
    · rw [h] at h1
      cases h1
      exact absurd rfl (h2 tf)
    · rw [h] at h1
      cases h1
      rcases herr with h3 | h3 <;> cases h3
    · rw [h] at h1
      cases h1
    · rw [h] at h1
      have htf : tf = (recorded_times mid).getLastD args.begin_time := by
        injection h1 with h1
        injection h1
      rw [← htf] at h2 h4
      obtain ⟨c1, c2, c3, c4⟩ := hm
      refine ⟨pre ++ [.start_simulation, .get_variables w.realVariables_
        w.integerVariables_ w.booleanVariables_ w.stringVariables_,
        .write_row args.begin_time line] ++ mid, h2, ?_, ?_, h4⟩
      · intro ev hev
        rcases List.mem_append.mp hev with hev | hev
        · rcases List.mem_append.mp hev with hev | hev
          · exact (p1 ev hev).2
          · simp only [List.mem_cons, List.mem_singleton, List.not_mem_nil, or_false] at hev
            rcases hev with rfl | rfl | rfl <;> simp
        · exact (c4 ev hev).1
      · rw [h2]
        intro x hx
        simp only [recorded_times_append, p2, List.nil_append] at hx
        have hx2 : x ∈ args.begin_time :: recorded_times mid := by
          simpa [recorded_times] using hx
        rw [htf]
        exact chain_le_last args.stepSize (recorded_times mid) args.begin_time c1 x hx2
    · rw [h] at h1
      cases h1
      rcases herr with h3 | h3 <;> cases h3

theorem written_text_append {ρ : Type} (l1 l2 : List (event ρ)) :
    written_text (l1 ++ l2) = written_text l1 ++ written_text l2 := by
  simp [written_text, List.filterMap_append]

/-- A recording keeps the content of the stream equal to the text of the
lines logged as written. -/
theorem update_output {σ ρ : Type} (env : collaborators σ ρ) (w : csv_output_writer) (t : Int)
    (st : run_state σ ρ) (hout : st.output = some (written_text st.log)) :
    (csv_output_writer.update env w t st).1.output =
      some (written_text (csv_output_writer.update env w t st).1.log) := by
  rcases update_cases env w t st with ⟨err, _, hu⟩ | ⟨line, hu⟩
  · rw [hu]
    simp only [hout, written_text_append]
    simp [written_text]
  · rw [hu]
    simp only [hout, written_text_append, Option.getD_some]
    simp [written_text]

/-- The stepping loop keeps the content of the stream equal to the text of the
lines logged as written, whatever the collaborators do. -/
theorem step_loop_output {σ ρ : Type} (env : collaborators σ ρ) (e s : Int) (hs : 0 < s)
    (w : csv_output_writer) :
    ∀ (n : Nat) (t : Int) (st : run_state σ ρ), (e - t).toNat ≤ n →
      st.output = some (written_text st.log) →
      (step_loop env e s hs w t st).1.output =
        some (written_text (step_loop env e s hs w t st).1.log) := by
  intro n
  induction n with
  | zero =>
    intro t st hn hout
    have hte : ¬ t < e := by omega
    rw [step_loop, dif_neg hte]
    exact hout
  | succ n ih =>
    intro t st hn hout
    by_cases hte : t < e
    · have hdt : 0 < min (e - t) s := lt_min (by omega) hs
      have hst1 : st.output = some (written_text (st.log ++ [(.do_step t s : event ρ)])) := by
        simp only [hout, written_text_append]
        simp [written_text]
      by_cases hc : (env.simulator.do_step st.sim t s).1 = .complete
      · have hup := update_output env w (t + min (e - t) s)
          { sim := (env.simulator.do_step st.sim t s).2, log := st.log ++ [.do_step t s],
            output := st.output } hst1
        rcases update_cases env w (t + min (e - t) s)
          { sim := (env.simulator.do_step st.sim t s).2, log := st.log ++ [.do_step t s],
            output := st.output } with ⟨err, _, hu⟩ | ⟨line, hu⟩
        · have hl : step_loop env e s hs w t st =
              ({ sim := (env.simulator.do_step st.sim t s).2,
                 log := st.log ++ [.do_step t s] ++ [.get_variables w.realVariables_
                   w.integerVariables_ w.booleanVariables_ w.stringVariables_],
                 output := st.output }, .error err) := by
            rw [step_loop, dif_pos hte]
            simp only [hc, ne_eq, not_true_eq_false, if_false]
            rw [hu]
          rw [hl]
          rw [hu] at hup
          exact hup
        · have hloop : step_loop env e s hs w t st =
              step_loop env e s hs w (t + min (e - t) s)
                { sim := (env.simulator.do_step st.sim t s).2,
                  log := st.log ++ [.do_step t s] ++ [.get_variables w.realVariables_
                    w.integerVariables_ w.booleanVariables_ w.stringVariables_,
                    .write_row (t + min (e - t) s) line] ++
                    [.sleep (t + min (e - t) s), .progress (t + min (e - t) s)],
                  output := some (st.output.getD [] ++ line) } := by
            rw [step_loop, dif_pos hte]
            simp only [hc, ne_eq, not_true_eq_false, if_false]
            rw [hu]
          rw [hloop]
          apply ih _ _ (by omega)
          rw [hu] at hup
          simp only at hup
          simp only [hup, written_text_append]
          simp [written_text]
      · have hl : step_loop env e s hs w t st =
            (end_simulation env
              { sim := (env.simulator.do_step st.sim t s).2,
                log := st.log ++ [.do_step t s], output := st.output },
             .error (.step_failed t)) := by
          rw [step_loop, dif_pos hte]
          simp only [ne_eq, hc, not_false_eq_true, if_true]
        rw [hl]
        simp only [end_simulation, hout, written_text_append]
        simp [written_text]
    · rw [step_loop, dif_neg hte]
      exact hout

/-- The stepping loop when the first `k` steps complete, the next one fails and
no recording fails: it raises the error for the time of that step, in the
simulator state that `end_simulation` gives after the failed step, with one
row more per completed step. -/
theorem step_loop_fails_at_state {σ ρ : Type} (env : collaborators σ ρ) (e s : Int)
    (hs : 0 < s) (w : csv_output_writer)
    (hread : ∀ z r i b x, (env.simulator.get_variables z r i b x).isSome)
    (hwrite : ∀ c l, env.write_ok c l = true) :
    ∀ (k : Nat) (t : Int) (st : run_state σ ρ), t + (k : Int) * s < e →
      (∀ j : Nat, j < k →
        (env.simulator.do_step (sim_before_step env s j t st.sim) (t + (j : Int) * s) s).1 =
          .complete) →
      (env.simulator.do_step (sim_before_step env s k t st.sim) (t + (k : Int) * s) s).1 ≠
        .complete →
      ∃ st', step_loop env e s hs w t st = (st', .error (.step_failed (t + (k : Int) * s))) ∧
        st'.sim = env.simulator.end_simulation
          (env.simulator.do_step (sim_before_step env s k t st.sim)
            (t + (k : Int) * s) s).2 ∧
        recorded_times st'.log = recorded_times st.log ++
          (List.range k).map (fun (j : Nat) => t + ((j : Int) + 1) * s) := by
  intro k
  induction k with
  | zero =>
    intro t st hk _ hfail
    simp only [Nat.cast_zero, zero_mul, add_zero, sim_before_step] at hk hfail ⊢
    refine ⟨end_simulation env
      { sim := (env.simulator.do_step st.sim t s).2,
        log := st.log ++ [.do_step t s], output := st.output }, ?_, rfl, ?_⟩
    · rw [step_loop, dif_pos hk]
      simp only [ne_eq, hfail, not_false_eq_true, if_true]
    · simp [end_simulation, recorded_times_append, recorded_times]
  | succ k ih =>
    intro t st hk hbefore hfail
    have hks : 0 ≤ (k : Int) * s := mul_nonneg (Int.ofNat_nonneg k) hs.le
    have ht : t + ((k + 1 : Nat) : Int) * s = t + s + (k : Int) * s := by push_cast; ring
    have hk2 : t + s + (k : Int) * s < e := by
      rw [ht] at hk
      exact hk
    have hte : t < e := by omega
    have h0 := hbefore 0 (Nat.succ_pos k)
    simp only [Nat.cast_zero, zero_mul, add_zero, sim_before_step] at h0
    have hmin : min (e - t) s = s := min_eq_right (by omega)
    obtain ⟨line, hu⟩ := update_ok env w (t + s)
      { sim := (env.simulator.do_step st.sim t s).2, log := st.log ++ [.do_step t s],
        output := st.output } hread hwrite
    obtain ⟨st', h1, h2, h3⟩ := ih (t + s)
      { sim := (env.simulator.do_step st.sim t s).2,
        log := st.log ++ [.do_step t s] ++ [.get_variables w.realVariables_
          w.integerVariables_ w.booleanVariables_ w.stringVariables_,
          .write_row (t + s) line] ++ [.sleep (t + s), .progress (t + s)],
        output := some (st.output.getD [] ++ line) } hk2
      (by
        intro j hj
        have := hbefore (j + 1) (Nat.succ_lt_succ hj)
        simp only [sim_before_step] at this
        have htj : t + ((j + 1 : Nat) : Int) * s = t + s + (j : Int) * s := by
          push_cast; ring
        rw [htj] at this
        exact this)
      (by
        simp only [sim_before_step] at hfail
        rw [ht] at hfail
        exact hfail)
    refine ⟨st', ?_, ?_, ?_⟩
    · rw [step_loop, dif_pos hte]
      simp only [h0, ne_eq, not_true_eq_false, if_false, hmin]
      rw [hu]
      simp only
      rw [ht, ← h1]
    · rw [h2]
      simp only [sim_before_step]
      rw [ht]
    · have hrow : recorded_times (st.log ++ [(.do_step t s : event ρ)] ++
          [.get_variables w.realVariables_ w.integerVariables_ w.booleanVariables_
            w.stringVariables_, .write_row (t + s) line] ++
          [.sleep (t + s), .progress (t + s)]) = recorded_times st.log ++ [t + s] := by
        rw [recorded_times_append, recorded_times_append, recorded_times_append]
        have a1 : recorded_times [(.do_step t s : event ρ)] = [] := rfl
        have a2 : recorded_times [(.get_variables w.realVariables_ w.integerVariables_
            w.booleanVariables_ w.stringVariables_ : event ρ), .write_row (t + s) line] =
            [t + s] := rfl
        have a3 : recorded_times [(.sleep (t + s) : event ρ), .progress (t + s)] = [] := rfl
        rw [a1, a2, a3]
        simp
      rw [h3, hrow, List.range_succ_eq_map, List.append_assoc]
      congr 1
      simp only [List.map_cons, List.map_map, List.singleton_append]
      congr 1
      · simp
      · apply List.map_congr_left
        intro j _
        simp only [Function.comp, Nat.succ_eq_add_one]
        push_cast
        ring

/-- The simulator state after a stepping loop in which no step and no
recording fails: the state before the step that would come after the last
one. -/
theorem step_loop_complete_sim {σ ρ : Type} (env : collaborators σ ρ) (e s : Int)
    (hs : 0 < s) (w : csv_output_writer)
    (hstep : ∀ z t dt, (env.simulator.do_step z t dt).1 = .complete)
    (hread : ∀ z r i b x, (env.simulator.get_variables z r i b x).isSome)
    (hwrite : ∀ c l, env.write_ok c l = true) :
    ∀ (n : Nat) (t : Int) (st : run_state σ ρ), (e - t).toNat ≤ n →
      (step_loop env e s hs w t st).1.sim =
        sim_before_step env s (iterations t e s) t st.sim := by
  intro n
  induction n with
  | zero =>
    intro t st hn
    have hte : ¬ t < e := by omega
    rw [step_loop, dif_neg hte, iterations_done t e s hs hte]
    rfl
  | succ n ih =>
    intro t st hn
    by_cases hte : t < e
    · have hdt : 0 < min (e - t) s := lt_min (by omega) hs
      obtain ⟨line, hu⟩ := update_ok env w (t + min (e - t) s)
        { sim := (env.simulator.do_step st.sim t s).2, log := st.log ++ [.do_step t s],
          output := st.output } hread hwrite
      have hloop : step_loop env e s hs w t st =
          step_loop env e s hs w (t + min (e - t) s)
            { sim := (env.simulator.do_step st.sim t s).2,
              log := st.log ++ [.do_step t s] ++ [.get_variables w.realVariables_
                w.integerVariables_ w.booleanVariables_ w.stringVariables_,
                .write_row (t + min (e - t) s) line] ++
                [.sleep (t + min (e - t) s), .progress (t + min (e - t) s)],
              output := some (st.output.getD [] ++ line) } := by
        rw [step_loop, dif_pos hte]
        simp only [hstep, ne_eq, not_true_eq_false, if_false]
        rw [hu]
      rw [hloop, ih _ _ (by omega)]
      by_cases hlast : e - t ≤ s
      · have hmin : min (e - t) s = e - t := min_eq_left hlast
        have hend : t + (e - t) = e := by ring
        rw [hmin, hend, iterations_done e e s hs (lt_irrefl e), iterations_last t e s hte hlast]
        rfl
      · have hlast2 : s < e - t := by omega
        have hmin : min (e - t) s = s := min_eq_right hlast2.le
        rw [hmin, iterations_step t e s hs hlast2]
        rfl
    · rw [step_loop, dif_neg hte, iterations_done t e s hs hte]
      rfl

/-- The simulation part when the first recording goes through and the loop
ends with an error. -/
theorem simulate_step_error {σ ρ : Type} (env : collaborators σ ρ) (args : run_options)
    (hs : 0 < args.stepSize) (w : csv_output_writer) (st st1 st2 : run_state σ ρ) (u : Unit)
    (e : run_error)
    (h1 : w.update env args.begin_time
      { st with log := st.log ++ [.start_simulation],
                sim := env.simulator.start_simulation st.sim } = (st1, .ok u))
    (h2 : step_loop env args.end_time args.stepSize hs w args.begin_time st1 =
      (st2, .error e)) :
    simulate env args hs w st = ⟨st2, .error e⟩ := by
  unfold simulate
  rw [h1]
  simp only []
  rw [h2]

/-- The sample run from 0 to 3 in steps of 2 with the simulator whose second
step fails, evaluated: the calls made, the final simulator state and the
content of the output. -/
theorem halting_run :
    run halting_env sample_options 0 =
      ⟨{ sim := 101, log := halting_log,
         output := some "Time,x [0 real parameter],n [3 integer input],y [1 boolean input],z [4 boolean output],s [2 string parameter]\n0,0,0,false,false,\n2,0,0,false,false,\n".toList },
        .error (.step_failed 2)⟩ := by
  have h2 : step_loop halting_env 3 2 (by decide)
      { realVariables_ := [0], integerVariables_ := [3], booleanVariables_ := [1, 4],
        stringVariables_ := [2] } 2
      { sim := 1, log := halting_log.take 14,
        output := some "Time,x [0 real parameter],n [3 integer input],y [1 boolean input],z [4 boolean output],s [2 string parameter]\n0,0,0,false,false,\n2,0,0,false,false,\n".toList } =
      ({ sim := 101, log := halting_log,
         output := some "Time,x [0 real parameter],n [3 integer input],y [1 boolean input],z [4 boolean output],s [2 string parameter]\n0,0,0,false,false,\n2,0,0,false,false,\n".toList },
        .error (.step_failed 2)) := by
    rw [step_loop, dif_pos (by decide)]
    rfl
  have h1 : step_loop halting_env 3 2 (by decide)
      { realVariables_ := [0], integerVariables_ := [3], booleanVariables_ := [1, 4],
        stringVariables_ := [2] } 0
      { sim := 0, log := halting_log.take 9,
        output := some "Time,x [0 real parameter],n [3 integer input],y [1 boolean input],z [4 boolean output],s [2 string parameter]\n0,0,0,false,false,\n".toList } =
      ({ sim := 101, log := halting_log,
         output := some "Time,x [0 real parameter],n [3 integer input],y [1 boolean input],z [4 boolean output],s [2 string parameter]\n0,0,0,false,false,\n2,0,0,false,false,\n".toList },
        .error (.step_failed 2)) := by
    rw [step_loop, dif_pos (by decide)]
    exact h2
  rcases run_unfold halting_env sample_options 0 (by decide) with ⟨l, e, hl, hp, _⟩ | ⟨_, hrun⟩
  · cases Option.some.inj hl
    cases hp
  · rw [hrun]
    exact simulate_step_error halting_env sample_options (by decide)
      { realVariables_ := [0], integerVariables_ := [3], booleanVariables_ := [1, 4],
        stringVariables_ := [2] } _ _ _ () _ rfl h1

/-- C12: in a run in which the first `k` `do_step` calls complete and the next
one, made at the time `begin_time + k * step_size`, returns another status
(nothing else failing before it), the run ends with the error that reports
that time.  The simulator is left in the state that `end_simulation` gives
after the failed step; the last two events are the failing `do_step` call and
`end_simulation`, which is called nowhere before, so that no step and no
recording follows the failing call.  The rows are the one for `begin_time`
and one per completed step, none for a time after that of the failing call;
and they remain: the content of the output is the header and these rows, as
they were written before the failing call. -/
theorem C12_step_failure {σ ρ : Type} (env : collaborators σ ρ) (args : run_options)
    (sim : σ) (k : Nat)
    (hs : 0 < args.stepSize)
    (hread : ∀ z r i b x, (env.simulator.get_variables z r i b x).isSome)
    (hopen : env.open_ok = true) (hwrite : ∀ c l, env.write_ok c l = true)
    (hinit : ∀ l, args.initial_value = some l →
      ∃ v, parse_initial_values env.conversions l env.description = .ok v)
    (hcat : env.conversions.ndebug = true ∨
      ∀ var ∈ env.description.variables_, var.type ≠ .other)
    (hk : args.begin_time + (k : Int) * args.stepSize < args.end_time)
    (hbefore : ∀ j : Nat, j < k →
      (env.simulator.do_step
        (sim_before_step env args.stepSize j args.begin_time (started_sim env args sim))
        (args.begin_time + (j : Int) * args.stepSize) args.stepSize).1 = .complete)
    (hfail :
      (env.simulator.do_step
        (sim_before_step env args.stepSize k args.begin_time (started_sim env args sim))
        (args.begin_time + (k : Int) * args.stepSize) args.stepSize).1 ≠ .complete) :
    (run env args sim).result =
      .error (.step_failed (args.begin_time + (k : Int) * args.stepSize)) ∧
    (run env args sim).state.sim = env.simulator.end_simulation
      (env.simulator.do_step
        (sim_before_step env args.stepSize k args.begin_time (started_sim env args sim))
        (args.begin_time + (k : Int) * args.stepSize) args.stepSize).2 ∧
    recorded_times (run env args sim).state.log = args.begin_time ::
      (List.range k).map (fun (j : Nat) => args.begin_time + ((j : Int) + 1) * args.stepSize) ∧
    (run env args sim).state.output = some (written_text (run env args sim).state.log) ∧
    ∃ pre, (run env args sim).state.log = pre ++
        [.do_step (args.begin_time + (k : Int) * args.stepSize) args.stepSize,
          .end_simulation] ∧
      (∀ ev ∈ pre, ev ≠ .end_simulation) ∧
      written_text pre = written_text (run env args sim).state.log ∧
      recorded_times pre = recorded_times (run env args sim).state.log ∧
      (∀ x ∈ recorded_times (run env args sim).state.log,
        x ≤ args.begin_time + (k : Int) * args.stepSize) := by
  obtain ⟨w, pre0, line, out, _, p2, _, hr, hout⟩ :=
    run_started env args sim hs hread hopen hwrite hinit hcat
  obtain ⟨st', h1, h2, h3⟩ := step_loop_fails_at_state env args.end_time args.stepSize hs w
    hread hwrite k args.begin_time
    { sim := started_sim env args sim,
      log := pre0 ++ [.start_simulation, .get_variables w.realVariables_
        w.integerVariables_ w.booleanVariables_ w.stringVariables_,
        .write_row args.begin_time line],
      output := out } hk hbefore hfail
  have hout2 := step_loop_output env args.end_time args.stepSize hs w _ args.begin_time
    { sim := started_sim env args sim,
      log := pre0 ++ [.start_simulation, .get_variables w.realVariables_
        w.integerVariables_ w.booleanVariables_ w.stringVariables_,
        .write_row args.begin_time line],
      output := out } (le_refl _) hout
  rw [h1] at hr hout2
  have hres : (run env args sim).result =
      .error (.step_failed (args.begin_time + (k : Int) * args.stepSize)) := by
    rw [hr]
  have hstate : (run env args sim).state = st' := by
    rw [hr]
  obtain ⟨pre, s1, s2, s3, _⟩ := run_step_failed_shape env args sim _ hres
  refine ⟨hres, ?_, ?_, ?_, pre, s1, s2, ?_, ?_, s3⟩
  · rw [hstate, h2]
  · rw [hstate, h3, recorded_times_append, p2]
    rfl
  · rw [hstate]
    exact hout2
  · rw [s1, written_text_append]
    simp [written_text]
  · rw [s1, recorded_times_append]
    simp [recorded_times]

/-- C12 at the sample run from 0 to 3 in steps of 2 with the simulator whose
second step fails: the step at time 0 completes, the one at time 2 fails and
is reported; `end_simulation` brings the simulator state from 1 to 101; the
rows are those for the times 0 and 2, and the output holds the header and
these two rows. -/
theorem C12_step_failure_witness :
    (run halting_env sample_options 0).result = .error (.step_failed 2) ∧
    (run halting_env sample_options 0).state.sim = 101 ∧
    recorded_times (run halting_env sample_options 0).state.log = [0, 2] ∧
    (run halting_env sample_options 0).state.output =
      some "Time,x [0 real parameter],n [3 integer input],y [1 boolean input],z [4 boolean output],s [2 string parameter]\n0,0,0,false,false,\n2,0,0,false,false,\n".toList := by
  have h := C12_step_failure halting_env sample_options 0 1 (by decide)
    (fun _ _ _ _ _ => rfl) rfl (fun _ _ => rfl)
    (fun l h => by cases Option.some.inj h; exact ⟨_, rfl⟩) (Or.inl rfl) (by decide)
    (fun j hj => by
      have hj0 : j = 0 := by omega
      subst hj0
      rfl)
    (by decide)
  have hlog : (run halting_env sample_options 0).state.log = halting_log := by
    rw [halting_run]
  have hout := h.2.2.2.1
  rw [hlog] at hout
  exact ⟨h.1, h.2.1, h.2.2.1, hout⟩

/-- C13: in a run with a positive step size in which every step completes
and neither the set-up nor a read nor a write fails, the run returns 0; the
simulator receives `end_simulation` exactly once, after the last step: its
final state is the one that `end_simulation` gives from the state after the
last step, and `end_simulation` is the last event of the log and occurs
nowhere before, so that no step, read or recording follows it; the last row
recorded before it is for `end_time` when `begin_time ≤ end_time` (in general
for the later of the two times). -/
theorem C13_end_simulation_once {σ ρ : Type} (env : collaborators σ ρ) (args : run_options)
    (sim : σ) (hs : 0 < args.stepSize)
    (hstep : ∀ z t dt, (env.simulator.do_step z t dt).1 = .complete)
    (hread : ∀ z r i b x, (env.simulator.get_variables z r i b x).isSome)
    (hopen : env.open_ok = true) (hwrite : ∀ c l, env.write_ok c l = true)
    (hinit : ∀ l, args.initial_value = some l →
      ∃ v, parse_initial_values env.conversions l env.description = .ok v)
    (hcat : env.conversions.ndebug = true ∨
      ∀ var ∈ env.description.variables_, var.type ≠ .other) :
    (run env args sim).result = .ok 0 ∧
    (run env args sim).state.sim = env.simulator.end_simulation
      (sim_before_step env args.stepSize
        (iterations args.begin_time args.end_time args.stepSize) args.begin_time
        (started_sim env args sim)) ∧
    ∃ pre, (run env args sim).state.log = pre ++ [.end_simulation] ∧
      (∀ ev ∈ pre, ev ≠ .end_simulation) ∧
      (recorded_times pre).getLast? = some (max args.begin_time args.end_time) ∧
      (args.begin_time ≤ args.end_time →
        (recorded_times pre).getLast? = some args.end_time) := by
  obtain ⟨hres, _, _⟩ := run_complete env args sim hs hstep hread hopen hwrite hinit hcat
  have hsim : (run env args sim).state.sim = env.simulator.end_simulation
      (sim_before_step env args.stepSize
        (iterations args.begin_time args.end_time args.stepSize) args.begin_time
        (started_sim env args sim)) := by
    obtain ⟨w, pre0, line, out, _, _, _, hr, _⟩ :=
      run_started env args sim hs hread hopen hwrite hinit hcat
    have hs2 := step_loop_complete_sim env args.end_time args.stepSize hs w hstep hread
      hwrite _ args.begin_time
      { sim := started_sim env args sim,
        log := pre0 ++ [.start_simulation, .get_variables w.realVariables_
          w.integerVariables_ w.booleanVariables_ w.stringVariables_,
          .write_row args.begin_time line],
        output := out } (le_refl _)
    obtain ⟨st', hl, _, _⟩ := step_loop_complete env args.end_time args.stepSize hs w
      hstep hread hwrite _ args.begin_time
      { sim := started_sim env args sim,
        log := pre0 ++ [.start_simulation, .get_variables w.realVariables_
          w.integerVariables_ w.booleanVariables_ w.stringVariables_,
          .write_row args.begin_time line],
        output := out } (le_refl _)
    rw [hl] at hr hs2
    rw [hr]
    simp only [end_simulation]
    rw [← hs2]
  refine ⟨hres, hsim, ?_⟩
  obtain ⟨pre, p1, p2, _, hcases⟩ := run_trace env args sim hs
  rcases hcases with ⟨err, h1, _⟩ | ⟨err, w, _, h1, _⟩ |
    ⟨w, line, mid, hm, ⟨_, h2, h3⟩ | ⟨h1, _⟩ | ⟨err, _, h1, _⟩⟩
  · rw [hres] at h1
    cases h1
  · rw [hres] at h1
    cases h1
  · obtain ⟨c1, c2, _, c4⟩ := hm
    have hrec : recorded_times (pre ++ [.start_simulation, .get_variables w.realVariables_
        w.integerVariables_ w.booleanVariables_ w.stringVariables_,
        .write_row args.begin_time line] ++ mid) =
        args.begin_time :: recorded_times mid := by
      rw [recorded_times_append, recorded_times_append, p2]
      rfl
    have hlast : (recorded_times mid).getLastD args.begin_time =
        max args.begin_time args.end_time := by
      have hb := chain_le_last args.stepSize (recorded_times mid) args.begin_time c1
        args.begin_time (List.mem_cons_self _ _)
      rcases List.mem_cons.mp (List.getLastD_mem_cons (recorded_times mid) args.begin_time)
        with hl | hl
      · rw [hl] at h3 ⊢
        exact (max_eq_left h3).symm
      · have := c2 _ hl
        have he : (recorded_times mid).getLastD args.begin_time = args.end_time :=
          le_antisymm this h3
        rw [he] at hb ⊢
        exact (max_eq_right hb).symm
    refine ⟨_, h2, ?_, ?_, ?_⟩
    · intro ev hev
      rcases List.mem_append.mp hev with hev | hev
      · rcases List.mem_append.mp hev with hev | hev
        · exact (p1 ev hev).2
        · simp only [List.mem_cons, List.mem_singleton, List.not_mem_nil, or_false] at hev
          rcases hev with rfl | rfl | rfl <;> simp
      · exact (c4 ev hev).1
    · rw [hrec, List.getLast?_cons, ← List.getLastD_eq_getLast?, hlast]
    · intro hbe
      rw [hrec, List.getLast?_cons, ← List.getLastD_eq_getLast?, hlast, max_eq_right hbe]
  · rw [hres] at h1
    cases h1
  · rw [hres] at h1
    cases h1

/-- C13 at the run from 0 to 3 in steps of 2 with the counting simulator: the
two steps bring the state to 2 and `end_simulation`, received once, to 102. -/
theorem C13_end_simulation_once_witness :
    (run counting_env sample_options 0).result = .ok 0 ∧
    (run counting_env sample_options 0).state.sim = 102 := by
  have h := C13_end_simulation_once counting_env sample_options 0 (by decide)
    (fun _ _ _ => rfl) (fun _ _ _ _ _ => rfl) rfl (fun _ _ => rfl)
    (fun l h => by cases Option.some.inj h; exact ⟨_, rfl⟩) (Or.inl rfl)
  have hn : iterations sample_options.begin_time sample_options.end_time
      sample_options.stepSize = 2 := by
    show iterations 0 3 2 = 2
    rw [iterations_step 0 3 2 (by decide) (by decide),
      iterations_last (0 + 2) 3 2 (by decide) (by decide)]
  rw [hn] at h
  exact ⟨h.1, h.2.1⟩

/-- C14: the code on two runs in which the first recording fails after
`start_simulation`, once because the read throws and once because the row
cannot be written.  Each run ends with the error of the recording, and its log
holds `start_simulation` and no `end_simulation`: the model is left
started. -/
theorem C14_recording_failure_leaves_model_started :
    ((run unreadable_env sample_options ()).result = .error .read_failure ∧
      .start_simulation ∈ (run unreadable_env sample_options ()).state.log ∧
      .end_simulation ∉ (run unreadable_env sample_options ()).state.log) ∧
    ((run full_disk_env sample_options ()).result = .error .output_failure ∧
      .start_simulation ∈ (run full_disk_env sample_options ()).state.log ∧
      .end_simulation ∉ (run full_disk_env sample_options ()).state.log) := by
  refine ⟨⟨rfl, ?_, ?_⟩, ⟨rfl, ?_, ?_⟩⟩ <;> decide

/-- On no path that ends with the error of a recording is `end_simulation`
called. -/
theorem recording_failure_no_end_simulation {σ ρ : Type} (env : collaborators σ ρ)
    (args : run_options) (sim : σ)
    (h : (run env args sim).result = .error .read_failure ∨
      (run env args sim).result = .error .output_failure) :
    .end_simulation ∉ (run env args sim).state.log := by
  by_cases hs : args.stepSize ≤ 0
  · have hr : run env args sim = ⟨{ sim := sim }, .error .invalid_step_size⟩ := by
      unfold run
      rw [dif_pos hs]
    rw [hr]
    simp
  · obtain ⟨pre, p1, _, _, hcases⟩ := run_trace env args sim (not_le.mp hs)
    have hpre : .end_simulation ∉ pre := fun hm => (p1 _ hm).2 rfl
    rcases hcases with ⟨err, _, _, _, h2⟩ | ⟨err, w, _, _, h2⟩ |
      ⟨w, line, mid, hm, ⟨h1, _⟩ | ⟨h1, _⟩ | ⟨err, _, _, h2, _⟩⟩
    · rw [h2]
      exact hpre
    · rw [h2]
      simp [hpre]
    · rcases h with h | h <;> rw [h1] at h <;> cases h
    · rcases h with h | h <;> rw [h1] at h <;> cases h
    · have hmid : .end_simulation ∉ mid := fun hx => (hm.2.2.2 _ hx).1 rfl
      rw [h2]
      simp [hpre, hmid]

/-! ## Lemmas on the writer -/

theorem header_label_eq {ρ : Type} (rd : Rendering ρ) (var : variable_description) :
    header_label rd var = [','] ++ column_label rd var := by
  simp [header_label, column_label]

theorem row_line_eq {ρ : Type} (rd : Rendering ρ) (t : Int) (values : slave_values ρ) :
    row_line rd t values = csv_line (rd.showTime t) (row_cells rd values) := by
  simp [row_line, csv_line, row_cells, boolean_text, List.map_append, List.flatten_append,
    List.map_map, Function.comp_def]

/-- What the walk over the catalogue adds to the header streams and to the
reference lists: for each type, the labels and the references of the
variables of that type, in catalogue order. -/
theorem collect_headers_spec {ρ : Type} (rd : Rendering ρ) (nd : Bool)
    (vs : List variable_description) :
    ∀ (h0 h : var_headers) (w0 w : csv_output_writer),
      collect_headers rd nd (h0, w0) vs = some (h, w) →
      (h.realVarHeader = h0.realVarHeader ++
          ((vs.filter (fun var => var.type == .real)).map (header_label rd)).flatten ∧
        w.realVariables_ = w0.realVariables_ ++
          (vs.filter (fun var => var.type == .real)).map (fun var => var.reference)) ∧
      (h.integerVarHeader = h0.integerVarHeader ++
          ((vs.filter (fun var => var.type == .integer)).map (header_label rd)).flatten ∧
        w.integerVariables_ = w0.integerVariables_ ++
          (vs.filter (fun var => var.type == .integer)).map (fun var => var.reference)) ∧
      (h.booleanVarHeader = h0.booleanVarHeader ++
          ((vs.filter (fun var => var.type == .boolean)).map (header_label rd)).flatten ∧
        w.booleanVariables_ = w0.booleanVariables_ ++
          (vs.filter (fun var => var.type == .boolean)).map (fun var => var.reference)) ∧
      (h.stringVarHeader = h0.stringVarHeader ++
          ((vs.filter (fun var => var.type == .string)).map (header_label rd)).flatten ∧
        w.stringVariables_ = w0.stringVariables_ ++
          (vs.filter (fun var => var.type == .string)).map (fun var => var.reference)) := by
  induction vs with
  | nil =>
    intro h0 h w0 w hc
    simp only [collect_headers, Option.some.injEq, Prod.mk.injEq] at hc
    obtain ⟨rfl, rfl⟩ := hc
    simp
  | cons v vs ih =>
    intro h0 h w0 w hc
    unfold collect_headers at hc
    cases ht : v.type <;> simp only [ht] at hc
    · have := ih _ _ _ _ hc
      simpa [List.filter_cons, ht, List.append_assoc] using this
    · have := ih _ _ _ _ hc
      simpa [List.filter_cons, ht, List.append_assoc] using this
    · have := ih _ _ _ _ hc
      simpa [List.filter_cons, ht, List.append_assoc] using this
    · have := ih _ _ _ _ hc
      simpa [List.filter_cons, ht, List.append_assoc] using this
    · split at hc
      · have := ih _ _ _ _ hc
        simpa [List.filter_cons, ht] using this
      · cases hc

/-- The header line of a walk from empty streams is the line of `Time` and the
labels of the catalogue variables in column order. -/
theorem header_line_eq {ρ : Type} (rd : Rendering ρ) (nd : Bool) (md : model_description)
    (h : var_headers) (w : csv_output_writer)
    (hc : collect_headers rd nd ({}, {}) md.variables_ = some (h, w)) :
    header_line h = csv_line "Time".toList ((catalog_columns md).map (column_label rd)) ∧
    w = { realVariables_ := (variables_of_type md .real).map (fun var => var.reference),
          integerVariables_ := (variables_of_type md .integer).map (fun var => var.reference),
          booleanVariables_ := (variables_of_type md .boolean).map (fun var => var.reference),
          stringVariables_ := (variables_of_type md .string).map (fun var => var.reference) } := by
  obtain ⟨⟨r1, r2⟩, ⟨i1, i2⟩, ⟨b1, b2⟩, ⟨s1, s2⟩⟩ := collect_headers_spec rd nd md.variables_ _ _ _ _ hc
  have hite : ∀ x : Str, (if x ≠ [] then x else []) = x := by
    intro x
    by_cases hx : x = []
    · simp [hx]
    · simp [hx]
  simp only [List.nil_append] at r1 r2 i1 i2 b1 b2 s1 s2
  constructor
  · unfold header_line
    rw [hite, hite, hite, hite, r1, i1, b1, s1]
    have hl : header_label rd = fun var => [','] ++ column_label rd var := by
      funext var
      exact header_label_eq rd var
    simp [csv_line, catalog_columns, variables_of_type, hl, List.map_append,
      List.flatten_append, List.map_map, Function.comp_def]
  · cases w
    simp only at r2 i2 b2 s2
    simp [variables_of_type, r2, i2, b2, s2]

/-- On a catalogue of the four scalar types the columns are the catalogue
variables, each once. -/
theorem catalog_columns_perm (md : model_description)
    (hcat : ∀ var ∈ md.variables_, var.type ≠ .other) :
    List.Perm (catalog_columns md) md.variables_ := by
  obtain ⟨vs⟩ := md
  simp only [catalog_columns, variables_of_type] at hcat ⊢
  induction vs with
  | nil => simp
  | cons v vs ih =>
    have ih2 := ih (fun var hv => hcat var (List.mem_cons_of_mem _ hv))
    have hv := hcat v (List.mem_cons_self _ _)
    cases ht : v.type
    · simp only [List.filter_cons, ht, beq_self_eq_true, if_true, List.cons_append]
      simpa using ih2
    · simp only [List.filter_cons, ht, beq_self_eq_true, if_true]
      simp only [show (variable_type.integer == variable_type.real) = false from rfl,
        show (variable_type.integer == variable_type.boolean) = false from rfl,
        show (variable_type.integer == variable_type.string) = false from rfl]
      simp only [Bool.false_eq_true, if_false, List.append_assoc]
      exact (List.perm_middle).trans (List.Perm.cons v (by simpa [List.append_assoc] using ih2))
    · simp only [List.filter_cons, ht, beq_self_eq_true, if_true]
      simp only [show (variable_type.boolean == variable_type.real) = false from rfl,
        show (variable_type.boolean == variable_type.integer) = false from rfl,
        show (variable_type.boolean == variable_type.string) = false from rfl]
      simp only [Bool.false_eq_true, if_false, List.append_assoc]
      rw [← List.append_assoc]
      exact (List.perm_middle).trans (List.Perm.cons v (by simpa [List.append_assoc] using ih2))
    · simp only [List.filter_cons, ht, beq_self_eq_true, if_true]
      simp only [show (variable_type.string == variable_type.real) = false from rfl,
        show (variable_type.string == variable_type.integer) = false from rfl,
        show (variable_type.string == variable_type.boolean) = false from rfl]
      simp only [Bool.false_eq_true, if_false]
      exact (List.perm_middle).trans (List.Perm.cons v (by simpa [List.append_assoc] using ih2))
    · exact absurd ht hv

/-- C16: on a catalogue whose variables all have one of the four types, and
with a file that opens and takes the header line, the constructor writes the
line made of `Time` and one label per catalogue variable, each after a comma:
the real variables first, then the integer, the boolean and the string ones,
each group in catalogue order.  The labelled variables are the catalogue
variables, each once; a label is the name followed by the reference, the type
and the causality in brackets; and the four stored reference lists are the
references of the catalogue variables of each type in catalogue order. -/
theorem C16_header_partition {σ ρ : Type} (env : collaborators σ ρ) (f : Str)
    (st : run_state σ ρ)
    (hcat : ∀ var ∈ env.description.variables_, var.type ≠ .other)
    (hopen : env.open_ok = true)
    (hwrite : env.write_ok [] (csv_line "Time".toList
      ((catalog_columns env.description).map (column_label env.rendering))) = true) :
    csv_output_writer.create env f st =
      ({ sim := st.sim,
         log := st.log ++ [.open_output f, .write_header (csv_line "Time".toList
           ((catalog_columns env.description).map (column_label env.rendering)))],
         output := some (csv_line "Time".toList
           ((catalog_columns env.description).map (column_label env.rendering))) },
       .ok { realVariables_ :=
               (env.description.variables_.filter (fun var => var.type == .real)).map
                 (fun var => var.reference),
             integerVariables_ :=
               (env.description.variables_.filter (fun var => var.type == .integer)).map
                 (fun var => var.reference),
             booleanVariables_ :=
               (env.description.variables_.filter (fun var => var.type == .boolean)).map
                 (fun var => var.reference),
             stringVariables_ :=
               (env.description.variables_.filter (fun var => var.type == .string)).map
                 (fun var => var.reference) }) ∧
    catalog_columns env.description =
      env.description.variables_.filter (fun var => var.type == .real) ++
      env.description.variables_.filter (fun var => var.type == .integer) ++
      env.description.variables_.filter (fun var => var.type == .boolean) ++
      env.description.variables_.filter (fun var => var.type == .string) ∧
    List.Perm (catalog_columns env.description) env.description.variables_ ∧
    (∀ var, column_label env.rendering var = var.name ++ " [".toList ++
      env.rendering.showReference var.reference ++ [' '] ++
      env.rendering.showType var.type ++ [' '] ++
      env.rendering.showCausality var.causality ++ [']']) := by
  refine ⟨?_, rfl, catalog_columns_perm env.description hcat, fun _ => rfl⟩
  obtain ⟨⟨h, w⟩, hcol⟩ := collect_headers_some env.rendering env.conversions.ndebug
    env.description.variables_ (Or.inr hcat) ({}, {})
  obtain ⟨hl, hw⟩ := header_line_eq env.rendering env.conversions.ndebug env.description
    h w hcol
  unfold csv_output_writer.create
  simp only [hopen, if_true, hcol, hl, hwrite]
  rw [hw]
  simp [variables_of_type]

/-- C16 at the sample catalogue: the stored references, by type. -/
theorem C16_header_partition_witness :
    (csv_output_writer.create sample_env "out.csv".toList { sim := () }).2 =
      .ok { realVariables_ := [0], integerVariables_ := [3], booleanVariables_ := [1, 4],
            stringVariables_ := [2] } :=
  congrArg Prod.snd (C16_header_partition sample_env "out.csv".toList { sim := () }
    (by decide) rfl rfl).1

/-- C18: for every time and every batch of values that the simulator returns
for the stored references, and a stream that takes the line, `update` appends
one line to the content of the stream and leaves what was written before as it
was.  The line is the time followed by one cell per value, each after a
comma: the real values, then the integer values, then the boolean values as
the text `true` or `false`, then the string values, each group in the order
returned; then the line end. -/
theorem C18_update_appends_row {σ ρ : Type} (env : collaborators σ ρ)
    (w : csv_output_writer) (t : Int) (st : run_state σ ρ) (written : Str)
    (values : slave_values ρ)
    (hout : st.output = some written)
    (hget : env.simulator.get_variables st.sim w.realVariables_ w.integerVariables_
      w.booleanVariables_ w.stringVariables_ = some values)
    (hwrite : env.write_ok written
      (csv_line (env.rendering.showTime t) (row_cells env.rendering values)) = true) :
    csv_output_writer.update env w t st =
      ({ sim := st.sim,
         log := st.log ++ [.get_variables w.realVariables_ w.integerVariables_
           w.booleanVariables_ w.stringVariables_,
           .write_row t (csv_line (env.rendering.showTime t)
             (row_cells env.rendering values))],
         output := some (written ++
           csv_line (env.rendering.showTime t) (row_cells env.rendering values)) },
       .ok ()) ∧
    csv_line (env.rendering.showTime t) (row_cells env.rendering values) =
      env.rendering.showTime t ++
        ((values.real.map env.rendering.showReal ++
          values.integer.map env.rendering.showInt ++
          values.boolean.map (fun v => if v then "true".toList else "false".toList) ++
          values.string).map (fun c => [','] ++ c)).flatten ++ ['\n'] := by
  constructor
  · unfold csv_output_writer.update
    simp [hget, hout, row_line_eq, hwrite]
  · rfl

/-- C18 at the sample collaborators: a row for time 2 after a header. -/
theorem C18_update_appends_row_witness :
    (csv_output_writer.update sample_env { realVariables_ := [0], booleanVariables_ := [1] } 2
      { sim := (), output := some "Time\n".toList }).1.output =
      some ("Time\n".toList ++ "2,0,false\n".toList) :=
  congrArg (fun r => r.1.output)
    (C18_update_appends_row sample_env { realVariables_ := [0], booleanVariables_ := [1] } 2
      { sim := (), output := some "Time\n".toList } "Time\n".toList
      { real := [0], boolean := [false] } rfl rfl rfl).1

/-- In a chain of increasing times from `t`, every time is after `t`. -/
theorem chain_gt_first (s : Int) (rows : List Int) :
    ∀ t, List.Chain (fun a b => a < b ∧ b - a ≤ s) t rows → ∀ x ∈ rows, t < x := by
  induction rows with
  | nil =>
    intro t _ x hx
    cases hx
  | cons r rows ih =>
    intro t hc x hx
    rw [List.chain_cons] at hc
    rcases List.mem_cons.mp hx with rfl | hx
    · exact hc.1.1
    · have := ih r hc.2 x hx
      omega

/-- In a chain of increasing times from `t`, every time but the last is
before the last. -/
theorem chain_dropLast_lt (s : Int) (rows : List Int) :
    ∀ t, List.Chain (fun a b => a < b ∧ b - a ≤ s) t rows →
      ∀ x ∈ (t :: rows).dropLast, x < rows.getLastD t := by
  induction rows with
  | nil =>
    intro t _ x hx
    simp at hx
  | cons r rows ih =>
    intro t hc x hx
    rw [List.chain_cons] at hc
    rw [List.getLastD_cons]
    rw [List.dropLast_cons₂] at hx
    rcases List.mem_cons.mp hx with rfl | hx
    · have := chain_le_last s rows r hc.2 r (List.mem_cons_self _ _)
      omega
    · exact ih r hc.2 x hx

/-- The times but the last, followed by the last, are all the times. -/
theorem dropLast_append_getLastD (rows : List Int) :
    ∀ t, (t :: rows).dropLast ++ [rows.getLastD t] = t :: rows := by
  induction rows with
  | nil =>
    intro t
    simp
  | cons r rows ih =>
    intro t
    rw [List.dropLast_cons₂, List.getLastD_cons, List.cons_append, ih r]

/-- C17: in every run with a positive step size and `begin_time ≤ end_time`,
whatever the collaborators do, the times of the rows are strictly increasing,
each at most one step size after the one before, they start at `begin_time`
and none is before `begin_time` or after `end_time`; and the times at which
the loop calls `do_step`, which are the values of its current time, are
strictly increasing, from `begin_time` on and before `end_time`. -/
theorem C17_times_increase {σ ρ : Type} (env : collaborators σ ρ) (args : run_options)
    (sim : σ) (hs : 0 < args.stepSize) (hbe : args.begin_time ≤ args.end_time) :
    List.Chain' (fun a b => a < b ∧ b - a ≤ args.stepSize)
      (recorded_times (run env args sim).state.log) ∧
    (∀ x ∈ recorded_times (run env args sim).state.log,
      args.begin_time ≤ x ∧ x ≤ args.end_time) ∧
    (∀ x, (recorded_times (run env args sim).state.log).head? = some x →
      x = args.begin_time) ∧
    List.Chain' (fun a b => a < b)
      ((do_step_calls (run env args sim).state.log).map Prod.fst) ∧
    (∀ c ∈ do_step_calls (run env args sim).state.log,
      args.begin_time ≤ c.1 ∧ c.1 < args.end_time) := by
  obtain ⟨pre, _, p2, p3, hcases⟩ := run_trace env args sim hs
  rcases hcases with ⟨err, _, _, _, h2⟩ | ⟨err, w, _, _, h2⟩ | ⟨w, line, mid, hm, hsub⟩
  · rw [h2, p2, p3]
    simp
  · have e1 : recorded_times (pre ++ [(.start_simulation : event ρ),
        .get_variables w.realVariables_ w.integerVariables_ w.booleanVariables_
          w.stringVariables_]) = [] := by
      rw [recorded_times_append, p2]
      rfl
    have e2 : do_step_calls (pre ++ [(.start_simulation : event ρ),
        .get_variables w.realVariables_ w.integerVariables_ w.booleanVariables_
          w.stringVariables_]) = [] := by
      rw [do_step_calls_append, p3]
      rfl
    rw [h2, e1, e2]
    simp
  · obtain ⟨c1, c2, c3, _⟩ := hm
    have hlast_mem := List.getLastD_mem_cons (recorded_times mid) args.begin_time
    have hT : ∀ x ∈ args.begin_time :: recorded_times mid,
        args.begin_time ≤ x ∧ x ≤ args.end_time := by
      intro x hx
      rcases List.mem_cons.mp hx with rfl | hx
      · exact ⟨le_refl _, hbe⟩
      · exact ⟨(chain_gt_first _ _ _ c1 x hx).le, c2 x hx⟩
    have hchain : List.Chain' (fun a b => a < b)
        (args.begin_time :: recorded_times mid) :=
      List.Chain'.imp (fun a b hab => hab.1)
        (show List.Chain' (fun a b => a < b ∧ b - a ≤ args.stepSize)
          (args.begin_time :: recorded_times mid) from c1)
    have hD : ∀ x ∈ (args.begin_time :: recorded_times mid).dropLast,
        args.begin_time ≤ x ∧ x < args.end_time := by
      intro x hx
      have h1 := chain_dropLast_lt _ _ _ c1 x hx
      have h2 := (hT _ hlast_mem).2
      exact ⟨(hT x (List.dropLast_subset _ hx)).1, by omega⟩
    have hfst : (do_step_calls mid).map Prod.fst =
        (args.begin_time :: recorded_times mid).dropLast := by
      rw [c3, List.map_map]
      simp [Function.comp_def]
    have erow : recorded_times (pre ++ [(.start_simulation : event ρ),
        .get_variables w.realVariables_ w.integerVariables_ w.booleanVariables_
          w.stringVariables_, .write_row args.begin_time line] ++ mid) =
        args.begin_time :: recorded_times mid := by
      rw [recorded_times_append, recorded_times_append, p2]
      rfl
    have ecall : do_step_calls (pre ++ [(.start_simulation : event ρ),
        .get_variables w.realVariables_ w.integerVariables_ w.booleanVariables_
          w.stringVariables_, .write_row args.begin_time line] ++ mid) =
        do_step_calls mid := by
      rw [do_step_calls_append, do_step_calls_append, p3]
      rfl
    have hrows : ∀ (tail : List (event ρ)), recorded_times tail = [] →
        recorded_times (pre ++ [(.start_simulation : event ρ),
          .get_variables w.realVariables_ w.integerVariables_ w.booleanVariables_
            w.stringVariables_, .write_row args.begin_time line] ++ mid ++ tail) =
          args.begin_time :: recorded_times mid := by
      intro tail ht
      rw [recorded_times_append, erow, ht, List.append_nil]
    rcases hsub with ⟨_, h2, _⟩ | ⟨_, h2, h3, _⟩ | ⟨err, _, _, h2, h3⟩
    · have er := hrows [.end_simulation] rfl
      have ec : do_step_calls (run env args sim).state.log = do_step_calls mid := by
        rw [h2, do_step_calls_append, ecall]
        simp [do_step_calls]
      rw [h2, er, ← h2, ec]
      refine ⟨c1, hT, ?_, ?_, ?_⟩
      · intro x hx
        simpa using hx.symm
      · rw [hfst]
        exact hchain.prefix (List.dropLast_prefix _)
      · intro c hc
        have : c.1 ∈ (do_step_calls mid).map Prod.fst := List.mem_map_of_mem _ hc
        rw [hfst] at this
        exact hD _ this
    · have er := hrows [.do_step ((recorded_times mid).getLastD args.begin_time)
        args.stepSize, .end_simulation] rfl
      have ec : do_step_calls (run env args sim).state.log = do_step_calls mid ++
          [((recorded_times mid).getLastD args.begin_time, args.stepSize)] := by
        rw [h2, do_step_calls_append, ecall]
        rfl
      have hfst2 : (do_step_calls (run env args sim).state.log).map Prod.fst =
          args.begin_time :: recorded_times mid := by
        rw [ec, List.map_append, hfst]
        exact dropLast_append_getLastD _ _
      rw [h2, er, ← h2, hfst2]
      refine ⟨c1, hT, ?_, hchain, ?_⟩
      · intro x hx
        simpa using hx.symm
      · intro c hc
        have : c.1 ∈ (do_step_calls (run env args sim).state.log).map Prod.fst :=
          List.mem_map_of_mem _ hc
        rw [hfst2] at this
        have h4 := chain_le_last _ _ _ c1 _ this
        exact ⟨(hT _ this).1, by omega⟩
    · have er := hrows [.do_step ((recorded_times mid).getLastD args.begin_time)
        args.stepSize, .get_variables w.realVariables_ w.integerVariables_
          w.booleanVariables_ w.stringVariables_] rfl
      have ec : do_step_calls (run env args sim).state.log = do_step_calls mid ++
          [((recorded_times mid).getLastD args.begin_time, args.stepSize)] := by
        rw [h2, do_step_calls_append, ecall]
        rfl
      have hfst2 : (do_step_calls (run env args sim).state.log).map Prod.fst =
          args.begin_time :: recorded_times mid := by
        rw [ec, List.map_append, hfst]
        exact dropLast_append_getLastD _ _
      rw [h2, er, ← h2, hfst2]
      refine ⟨c1, hT, ?_, hchain, ?_⟩
      · intro x hx
        simpa using hx.symm
      · intro c hc
        have : c.1 ∈ (do_step_calls (run env args sim).state.log).map Prod.fst :=
          List.mem_map_of_mem _ hc
        rw [hfst2] at this
        have h4 := chain_le_last _ _ _ c1 _ this
        exact ⟨(hT _ this).1, by omega⟩

/-- C17 at the sample run from 0 to 3 in steps of 2. -/
theorem C17_times_increase_witness :
    List.Chain' (fun a b => a < b ∧ b - a ≤ sample_options.stepSize)
      (recorded_times (run sample_env sample_options ()).state.log) :=
  (C17_times_increase sample_env sample_options () (by decide) (by decide)).1

/-! ## Lemmas on the order of the checks -/

/-- The conversion of the value of an argument that names a settable variable
fails exactly with the error of the conversion check. -/
theorem push_value_conversion_error {ρ : Type} (cv : Conversions ρ) (v : variable_values ρ)
    (var : variable_description) (name value : Str) :
    (conversion_error cv var name value = none →
      ∃ v2, push_value cv v var name value = .ok v2) ∧
    (∀ e, conversion_error cv var name value = some e →
      push_value cv v var name value = .error e) := by
  unfold conversion_error push_value
  cases ht : var.type <;> simp only
  · cases hc : cv.castReal value <;> simp
  · cases hc : cv.castInt value <;> simp
  · unfold boolean_of_text
    by_cases h1 : value = "true".toList
    · simp only [if_pos h1]
      simp
    · by_cases h2 : value = "false".toList
      · simp only [if_neg h1, if_pos h2]
        simp
      · simp only [if_neg h1, if_neg h2]
        simp
  · simp
  · cases cv.ndebug <;> simp

/-- The loop body fails exactly with the error of the argument taken alone,
whatever has been collected. -/
theorem parse_arg_first_error {ρ : Type} (cv : Conversions ρ) (md : model_description)
    (v : variable_values ρ) (a : Str) :
    (first_error cv md a = none → ∃ v2, parse_arg cv (fastVarLookup md) v a = .ok v2) ∧
    (∀ e, first_error cv md a = some e → parse_arg cv (fastVarLookup md) v a = .error e) := by
  unfold first_error
  by_cases hmem : '=' ∈ a
  · rw [if_pos hmem]
    cases hf : find '=' a with
    | none => exact absurd hmem ((find_eq_none_iff '=' a).mp hf)
    | some p =>
      obtain ⟨hn, hval⟩ := find_some_split a p hf
      unfold parse_arg
      simp only [hf, hn, hval, lookupFind_fastVarLookup]
      cases hv : catalog_variable md (arg_name a) with
      | none => simp
      | some var =>
        simp only
        by_cases hset : var.causality = .parameter ∨ var.causality = .input
        · rw [if_pos hset, if_neg (by tauto)]
          exact push_value_conversion_error cv v var (arg_name a) (arg_value a)
        · rw [if_neg hset, if_pos (by tauto)]
          simp
  · rw [if_neg hmem]
    rw [parse_arg_malformed cv _ a hmem v]
    simp

/-- The loop over the arguments fails with the error of the first argument
that has one, and succeeds when none has. -/
theorem parse_args_first_error {ρ : Type} (cv : Conversions ρ) (md : model_description)
    (args : List Str) :
    ∀ v0 : variable_values ρ,
      (args.findSome? (first_error cv md) = none →
        ∃ v, parse_args cv (fastVarLookup md) v0 args = .ok v) ∧
      (∀ e, args.findSome? (first_error cv md) = some e →
        parse_args cv (fastVarLookup md) v0 args = .error e) := by
  induction args with
  | nil =>
    intro v0
    simp [parse_args]
  | cons a rest ih =>
    intro v0
    obtain ⟨h1, h2⟩ := parse_arg_first_error cv md v0 a
    cases hfe : first_error cv md a with
    | none =>
      obtain ⟨v2, hv2⟩ := h1 hfe
      simp only [List.findSome?_cons, hfe, parse_args, hv2]
      exact ih v2
    | some e =>
      have := h2 e hfe
      simp only [List.findSome?_cons, hfe, parse_args, this]
      simp

/-- C19: `parse_initial_values` fails exactly with the error of the first
argument, in list order, that has one, and succeeds when no argument has one;
the error of an argument is decided by the checks in the order malformed,
unknown variable, not settable, conversion.  So an argument without `=` is
malformed; one with `=` whose name part is not in the catalogue gives "No such
variable" whatever its value text; and one that names a variable which is not
settable gives "Cannot initialise variable" whatever its value text, also when
the value would not convert. -/
theorem C19_first_error_reported {ρ : Type} (cv : Conversions ρ) (md : model_description)
    (args : List Str) :
    (∀ e, parse_initial_values cv args md = .error e ↔
      args.findSome? (first_error cv md) = some e) ∧
    ((∃ v, parse_initial_values cv args md = .ok v) ↔
      args.findSome? (first_error cv md) = none) ∧
    (∀ a, '=' ∉ a → first_error cv md a = some (.invalid_specification a)) ∧
    (∀ a, '=' ∈ a → catalog_variable md (arg_name a) = none →
      first_error cv md a = some (.no_such_variable (arg_name a))) ∧
    (∀ a var, arg_variable md a = some var → var.causality ≠ .parameter →
      var.causality ≠ .input → first_error cv md a = some (.cannot_initialise (arg_name a))) := by
  obtain ⟨h1, h2⟩ := parse_args_first_error cv md args {}
  refine ⟨?_, ?_, ?_, ?_, ?_⟩
  · intro e
    unfold parse_initial_values
    constructor
    · intro he
      cases hf : args.findSome? (first_error cv md) with
      | none =>
        obtain ⟨v, hv⟩ := h1 hf
        rw [hv] at he
        cases he
      | some e2 =>
        have := h2 e2 hf
        rw [this] at he
        cases he
        rfl
    · intro hf
      exact h2 e hf
  · unfold parse_initial_values
    constructor
    · rintro ⟨v, hv⟩
      cases hf : args.findSome? (first_error cv md) with
      | none => rfl
      | some e2 =>
        have := h2 e2 hf
        rw [this] at hv
        cases hv
    · intro hf
      exact h1 hf
  · intro a ha
    unfold first_error
    rw [if_neg ha]
  · intro a ha hv
    unfold first_error
    rw [if_pos ha, hv]
  · intro a var hvar hc1 hc2
    unfold arg_variable at hvar
    split at hvar
    · rename_i ha
      unfold first_error
      rw [if_pos ha, hvar]
      simp only
      rw [if_neg (by tauto)]
    · cases hvar

/-- C19 at the sample catalogue: after a valid argument, the value `notabool`
for the boolean output `z` gives the error for a variable that is not
settable, not the one of the conversion, and the unknown name after it is not
reached. -/
theorem C19_first_error_reported_witness :
    parse_initial_values sample_conversions
        ["x=25".toList, "z=notabool".toList, "nope=1".toList] sample_description =
      .error (.cannot_initialise "z".toList) :=
  ((C19_first_error_reported sample_conversions sample_description
    ["x=25".toList, "z=notabool".toList, "nope=1".toList]).1 _).mpr rfl

/-! ## The columns of the written text -/

end RunSingle
